import Mathlib

/-!
Verification of the soundfile I/O subsystem of src/d_soundfile.c.

The development shallowly embeds the sample codec
(soundfile_xferin_sample / soundfile_xferin_words /
soundfile_xferout_sample / soundfile_xferout_words), the synchronous
open routine (open_soundfile_via_fd), the constructor argument clamping
(readsf_new / writesf_new), the readsf_open header-size handling, and the
shared-ring-buffer step systems of the realtime reader (readsf_perform /
readsf_child_main) and writer (writesf_perform / writesf_child_main).

Conventions of the embedding:
* machine integers are modelled as Nat / Int with explicit reduction
  modulo 2^w where C overflow or conversions matter;
* C float / double sample values are modelled as rationals: every
  arithmetic operation the modelled code performs on samples
  (multiplication by a power-of-two scale, addition of 2^15 / 2^23,
  conversion to int) is exact in IEEE double for the magnitudes involved,
  so the rational model is faithful;
* sample vectors (t_sample * / t_word * arrays) are modelled as
  total stores Nat -> Nat -> Rat (channel, index);
* byte buffers (unsigned char *) are modelled as stores Nat -> Nat
  whose values are < 256;
* the IEEE-754 bit pattern <-> float correspondence of the 4-byte
  branch (union _floatuint) is kept abstract: definitions take the
  reinterpretation functions as parameters and the 32-bit float claims
  are settled at the level of the 32-bit pattern.
-/

namespace DSoundfile

/-- SCALE from d_soundfile.c line 41: 1 / (1024*1024*1024*2) = 2^-31. -/
def SCALE : ℚ := 1 / (1024 * 1024 * 1024 * 2)

/-- MAXSFCHANS from d_soundfile.c line 27. -/
def MAXSFCHANS : ℕ := 64

/-- Value of a C int (32-bit two's complement) holding the given bit
pattern; used for the `(b0 << 24) | (b1 << 16) ...` expressions whose
results land in the sign bit. -/
def asInt32 (n : ℕ) : ℤ :=
  if n % 4294967296 < 2147483648 then ((n % 4294967296 : ℕ) : ℤ)
  else ((n % 4294967296 : ℕ) : ℤ) - 4294967296

/-- Value of a signed 16-bit integer holding the given bit pattern. -/
def asInt16 (n : ℕ) : ℤ :=
  if n % 65536 < 32768 then ((n % 65536 : ℕ) : ℤ)
  else ((n % 65536 : ℕ) : ℤ) - 65536

/-- Value of a signed 24-bit integer holding the given bit pattern. -/
def asInt24 (n : ℕ) : ℤ :=
  if n % 16777216 < 8388608 then ((n % 16777216 : ℕ) : ℤ)
  else ((n % 16777216 : ℕ) : ℤ) - 16777216

/-- C conversion of a floating-point value to int: truncation toward
zero (C17 6.3.1.4). -/
def ctrunc (q : ℚ) : ℤ := if 0 ≤ q then ⌊q⌋ else ⌈q⌉

/-- C conversion of an int value to unsigned char: reduction mod 256
(C17 6.3.1.3). -/
def cByte (z : ℤ) : ℕ := (z % 256).toNat

/-- The clamp pattern of soundfile_xferout_sample:
`if (xx < lo) xx = lo; if (xx > hi) xx = hi;` (the two sequential
conditionals written as nested conditionals). -/
def cClamp (lo hi xx : ℤ) : ℤ :=
  if hi < (if xx < lo then lo else xx) then hi
  else (if xx < lo then lo else xx)

/-- The 16-bit sample encoder body of soundfile_xferout_sample
(lines 863-868): `int xx = 32768. + (*fp * ff); xx -= 32768;` followed
by the clamp to [-32767, 32767].  `ff` is `normalfactor * 32768.`
computed by the caller; `x` is the sample. -/
def xferout16val (ff x : ℚ) : ℤ :=
  cClamp (-32767) 32767 (ctrunc (32768 + x * ff) - 32768)

/-- The 24-bit sample encoder body of soundfile_xferout_sample
(lines 897-902): offset 8388608, clamp to [-8388607, 8388607],
`ff = normalfactor * 8388608.`. -/
def xferout24val (ff x : ℚ) : ℤ :=
  cClamp (-8388607) 8388607 (ctrunc (8388608 + x * ff) - 8388608)

/-- The 16-bit decoder expression of soundfile_xferin_sample:
big-endian `SCALE * ((sp2[0] << 24) | (sp2[1] << 16))` where the
disjoint bit-or is a sum; the int result is two's complement. -/
def xferin16valBE (b0 b1 : ℕ) : ℚ :=
  SCALE * (asInt32 (b0 * 16777216 + b1 * 65536) : ℚ)

/-- Little-endian 16-bit decoder expression:
`SCALE * ((sp2[1] << 24) | (sp2[0] << 16))`. -/
def xferin16valLE (b0 b1 : ℕ) : ℚ :=
  SCALE * (asInt32 (b1 * 16777216 + b0 * 65536) : ℚ)

/-- Big-endian 24-bit decoder expression:
`SCALE * ((sp2[0] << 24) | (sp2[1] << 16) | (sp2[2] << 8))`. -/
def xferin24valBE (b0 b1 b2 : ℕ) : ℚ :=
  SCALE * (asInt32 (b0 * 16777216 + b1 * 65536 + b2 * 256) : ℚ)

/-- Little-endian 24-bit decoder expression:
`SCALE * ((sp2[2] << 24) | (sp2[1] << 16) | (sp2[0] << 8))`. -/
def xferin24valLE (b0 b1 b2 : ℕ) : ℚ :=
  SCALE * (asInt32 (b2 * 16777216 + b1 * 65536 + b0 * 256) : ℚ)

/-- Big-endian 32-bit pattern reassembly of soundfile_xferin_sample
(lines 498-499): `(sp2[0] << 24) | (sp2[1] << 16) | (sp2[2] << 8) | sp2[3]`
into the `ui` member of union _floatuint (the bit-ors are disjoint for
byte inputs, hence a sum). -/
def xferin32patBE (b0 b1 b2 b3 : ℕ) : ℕ :=
  b0 * 16777216 + b1 * 65536 + b2 * 256 + b3

/-- Little-endian 32-bit pattern reassembly (lines 508-509):
`(sp2[3] << 24) | (sp2[2] << 16) | (sp2[1] << 8) | sp2[0]`. -/
def xferin32patLE (b0 b1 b2 b3 : ℕ) : ℕ :=
  b3 * 16777216 + b2 * 65536 + b1 * 256 + b0

/-- Big-endian byte extraction of soundfile_xferout_sample lines 934-935:
`sp2[0] = (f2.ui >> 24); sp2[1] = (f2.ui >> 16); sp2[2] = (f2.ui >> 8);
sp2[3] = f2.ui;` — `ui` is uint32_t so the shifts are logical division
and the unsigned-char assignments reduce mod 256.  `o` selects the byte. -/
def xferout32byteBE (w : ℕ) (o : ℕ) : ℕ :=
  if o = 0 then w / 16777216 % 256
  else if o = 1 then w / 65536 % 256
  else if o = 2 then w / 256 % 256
  else w % 256

/-- Little-endian byte extraction (lines 944-945):
`sp2[3] = (f2.ui >> 24); sp2[2] = (f2.ui >> 16); sp2[1] = (f2.ui >> 8);
sp2[0] = f2.ui;`. -/
def xferout32byteLE (w : ℕ) (o : ℕ) : ℕ :=
  if o = 3 then w / 16777216 % 256
  else if o = 2 then w / 65536 % 256
  else if o = 1 then w / 256 % 256
  else w % 256

/-- The fields of struct _soundfile (d_soundfile.h) used by the claims.
Sizes: sf_fd is an int, sf_headersize and sf_bytelimit are ssize_t. -/
structure t_soundfile where
  sf_fd : ℤ := -1
  sf_type : Option ℕ := none
  sf_samplerate : ℤ := 0
  sf_nchannels : ℕ := 0
  sf_bytespersample : ℕ := 0
  sf_bigendian : Bool := false
  sf_headersize : ℤ := 0
  sf_bytelimit : ℤ := 0
  sf_bytesperframe : ℕ := 0
deriving DecidableEq

/-- De-interleaved sample vectors (the `t_sample **vecs` and
`t_word **vecs` arguments): a total store indexed by channel and
position. -/
def VStore : Type := ℕ → ℕ → ℚ

/-- A byte buffer (`unsigned char *`): a total store of byte values. -/
def BStore : Type := ℕ → ℕ

/-- Pointwise store write `vecs[i][k] = x`. -/
def upd2 (v : VStore) (i k : ℕ) (x : ℚ) : VStore :=
  fun i' k' => if i' = i ∧ k' = k then x else v i' k'

/-- Pointwise byte write `buf[p] = x`. -/
def upd1 (b : BStore) (p x : ℕ) : BStore :=
  fun q => if q = p then x else b q

/-- The sample value soundfile_xferin_sample stores for channel `i`,
frame `j`: the decode of the wire bytes at
`buf + i*bytespersample + j*bytesperframe` according to the sample
width and byte order of the descriptor.  `interp32` is the abstract
value of the IEEE-754 single with the given 32-bit pattern
(`(t_sample)alias.f`). -/
def xferinVal (sf : t_soundfile) (interp32 : ℕ → ℚ) (buf : BStore)
    (i j : ℕ) : ℚ :=
  let base := i * sf.sf_bytespersample + j * sf.sf_bytesperframe
  if sf.sf_bytespersample = 2 then
    if sf.sf_bigendian then xferin16valBE (buf base) (buf (base + 1))
    else xferin16valLE (buf base) (buf (base + 1))
  else if sf.sf_bytespersample = 3 then
    if sf.sf_bigendian then
      xferin24valBE (buf base) (buf (base + 1)) (buf (base + 2))
    else xferin24valLE (buf base) (buf (base + 1)) (buf (base + 2))
  else
    if sf.sf_bigendian then
      interp32 (xferin32patBE (buf base) (buf (base + 1)) (buf (base + 2))
        (buf (base + 3)))
    else
      interp32 (xferin32patLE (buf base) (buf (base + 1)) (buf (base + 2))
        (buf (base + 3)))

/-- soundfile_xferin_sample (d_soundfile.c lines 449-519).  For each
channel `i < min(nchannels, nvecs)` the inner loop writes
`vecs[i][framesread + j]` for `j < nframes` (when the sample width is
2, 3 or 4; otherwise the branchless loop body writes nothing); then the
zero-fill loop (lines 515-518) writes `vecs[i][0..nframes-1] = 0` for
`nchannels <= i < nvecs` (note: `fp = vecs[i]`, not offset by
`framesread`). -/
def soundfile_xferin_sample (sf : t_soundfile) (interp32 : ℕ → ℚ)
    (nvecs : ℕ) (vecs : VStore) (framesread : ℕ) (buf : BStore)
    (nframes : ℕ) : VStore :=
  (List.range' sf.sf_nchannels (nvecs - sf.sf_nchannels)).foldl (fun v i =>
    (List.range nframes).foldl (fun v' j => upd2 v' i j 0) v)
    ((List.range (min sf.sf_nchannels nvecs)).foldl (fun v i =>
      if sf.sf_bytespersample = 2 ∨ sf.sf_bytespersample = 3 ∨
          sf.sf_bytespersample = 4 then
        (List.range nframes).foldl (fun v' j =>
          upd2 v' i (framesread + j) (xferinVal sf interp32 buf i j)) v
      else v) vecs)

/-- soundfile_xferin_words (lines 521-591): identical control flow and
arithmetic, writing `w_float` fields of t_word vectors instead of
t_sample vectors; in the embedding both stores are VStore. -/
def soundfile_xferin_words (sf : t_soundfile) (interp32 : ℕ → ℚ)
    (nvecs : ℕ) (vecs : VStore) (framesread : ℕ) (buf : BStore)
    (nframes : ℕ) : VStore :=
  (List.range' sf.sf_nchannels (nvecs - sf.sf_nchannels)).foldl (fun v i =>
    (List.range nframes).foldl (fun v' j => upd2 v' i j 0) v)
    ((List.range (min sf.sf_nchannels nvecs)).foldl (fun v i =>
      if sf.sf_bytespersample = 2 ∨ sf.sf_bytespersample = 3 ∨
          sf.sf_bytespersample = 4 then
        (List.range nframes).foldl (fun v' j =>
          upd2 v' i (framesread + j) (xferinVal sf interp32 buf i j)) v
      else v) vecs)

/-- Concrete mono 16-bit big-endian descriptor used by the C2 witness. -/
def sfC2W : t_soundfile :=
  { sf_nchannels := 1, sf_bytespersample := 2, sf_bytesperframe := 2,
    sf_bigendian := true }

/-- Concrete mono 16-bit descriptor used by the C4 counterexample and
witness. -/
def sfC4 : t_soundfile :=
  { sf_nchannels := 1, sf_bytespersample := 2, sf_bytesperframe := 2 }

/-- Arithmetic right shift of a C signed int by n bits (gcc/clang
implementation-defined behaviour): flooring division by 2^n. -/
def cshr (z : ℤ) (n : ℕ) : ℤ := Int.fdiv z (2 ^ n)

/-- One frame-and-channel write of soundfile_xferout_sample: the bytes
stored at `buf + i*bytespersample + j*bytesperframe` (called `base`
here) for sample value `x`.  `bits32` is the abstract IEEE-754 single
bit pattern of a float value (the `ui` member of union _floatuint). -/
def xferoutWrite (sf : t_soundfile) (bits32 : ℚ → ℕ) (normalfactor : ℚ)
    (x : ℚ) (base : ℕ) (b : BStore) : BStore :=
  if sf.sf_bytespersample = 2 then
    if sf.sf_bigendian then
      upd1 (upd1 b base (cByte (cshr (xferout16val (normalfactor * 32768) x)
        8))) (base + 1) (cByte (xferout16val (normalfactor * 32768) x))
    else
      upd1 (upd1 b (base + 1) (cByte (cshr
        (xferout16val (normalfactor * 32768) x) 8))) base
        (cByte (xferout16val (normalfactor * 32768) x))
  else if sf.sf_bytespersample = 3 then
    if sf.sf_bigendian then
      upd1 (upd1 (upd1 b base (cByte (cshr
          (xferout24val (normalfactor * 8388608) x) 16)))
        (base + 1) (cByte (cshr (xferout24val (normalfactor * 8388608) x)
          8)))
        (base + 2) (cByte (xferout24val (normalfactor * 8388608) x))
    else
      upd1 (upd1 (upd1 b (base + 2) (cByte (cshr
          (xferout24val (normalfactor * 8388608) x) 16)))
        (base + 1) (cByte (cshr (xferout24val (normalfactor * 8388608) x)
          8)))
        base (cByte (xferout24val (normalfactor * 8388608) x))
  else if sf.sf_bytespersample = 4 then
    if sf.sf_bigendian then
      upd1 (upd1 (upd1 (upd1 b base (xferout32byteBE
          (bits32 (x * normalfactor)) 0))
        (base + 1) (xferout32byteBE (bits32 (x * normalfactor)) 1))
        (base + 2) (xferout32byteBE (bits32 (x * normalfactor)) 2))
        (base + 3) (xferout32byteBE (bits32 (x * normalfactor)) 3)
    else
      upd1 (upd1 (upd1 (upd1 b (base + 3) (xferout32byteLE
          (bits32 (x * normalfactor)) 3))
        (base + 2) (xferout32byteLE (bits32 (x * normalfactor)) 2))
        (base + 1) (xferout32byteLE (bits32 (x * normalfactor)) 1))
        base (xferout32byteLE (bits32 (x * normalfactor)) 0)
  else b

/-- soundfile_xferout_sample (lines 844-950): for each channel
`i < nchannels` and frame `j < nframes`, encode `vecs[i][onsetframes+j]`
into the interleaved wire bytes at `buf + i*bytespersample +
j*bytesperframe`. -/
def soundfile_xferout_sample (sf : t_soundfile) (bits32 : ℚ → ℕ)
    (vecs : VStore) (buf : BStore) (nframes onsetframes : ℕ)
    (normalfactor : ℚ) : BStore :=
  (List.range sf.sf_nchannels).foldl (fun b i =>
    (List.range nframes).foldl (fun b' j =>
      xferoutWrite sf bits32 normalfactor (vecs i (onsetframes + j))
        (i * sf.sf_bytespersample + j * sf.sf_bytesperframe) b') b) buf

/-- soundfile_xferout_words (lines 952-1041): identical control flow
and arithmetic reading `w_float` members; in the embedding both vector
shapes are VStore. -/
def soundfile_xferout_words (sf : t_soundfile) (bits32 : ℚ → ℕ)
    (vecs : VStore) (buf : BStore) (nframes onsetframes : ℕ)
    (normalfactor : ℚ) : BStore :=
  (List.range sf.sf_nchannels).foldl (fun b i =>
    (List.range nframes).foldl (fun b' j =>
      xferoutWrite sf bits32 normalfactor (vecs i (onsetframes + j))
        (i * sf.sf_bytespersample + j * sf.sf_bytesperframe) b') b) buf

/-- Concrete mono 16-bit little-endian descriptor for the C3 witness. -/
def sfC3W : t_soundfile :=
  { sf_nchannels := 1, sf_bytespersample := 2, sf_bytesperframe := 2 }

/-- The argument clamping of readsf_new (lines 1961-1975): channel
count into [1, MAXSFCHANS], buffer size defaulted to
DEFBUFPERCHAN * nchannels when nonpositive, else clamped into
[MINBUFSIZE, MAXBUFSIZE].  Returns (nchannels, bufsize). -/
def readsf_new_clamp (nchannels bufsize : ℤ) : ℤ × ℤ :=
  (if nchannels < 1 then 1
   else if nchannels > 64 then 64 else nchannels,
   if bufsize ≤ 0 then
     262144 * (if nchannels < 1 then 1
       else if nchannels > 64 then 64 else nchannels)
   else if bufsize < 262144 then 262144
   else if bufsize > 16777216 then 16777216 else bufsize)

/-- The argument clamping of writesf_new (lines 2484-2498): identical
to readsf_new. -/
def writesf_new_clamp (nchannels bufsize : ℤ) : ℤ × ℤ :=
  (if nchannels < 1 then 1
   else if nchannels > 64 then 64 else nchannels,
   if bufsize ≤ 0 then
     262144 * (if nchannels < 1 then 1
       else if nchannels > 64 then 64 else nchannels)
   else if bufsize < 262144 then 262144
   else if bufsize > 16777216 then 16777216 else bufsize)

/-- EIO, the generic could-not-read-header errno (line 118). -/
def EIO : ℕ := 5

/-- Identifier of the raw type singleton sf_rawtype; other registered
types are modelled as other naturals. -/
def sf_rawtype : ℕ := 0

/-- The descriptor fields a successful t_readheaderfn fills in
(interface contract of d_soundfile.h; the per-format readers are not
part of this file). -/
structure HeaderInfo where
  samplerate : ℤ
  nchannels : ℕ
  bytespersample : ℕ
  bigendian : Bool
  headersize : ℤ
  bytelimit : ℤ
  bytesperframe : ℕ

/-- Modelled from the spec: outcomes of the handler capability calls
made by open_soundfile_via_fd (probe / lseek / t_openfn /
t_readheaderfn / t_seektoframefn).  The per-format handler
implementations are not in this repository's source; each call is
modelled by its returned outcome and the errno value the OS or handler
leaves behind (0 = none set).  A successful t_openfn records the fd in
sf_fd (default open behaviour per the interface); a successful
t_readheaderfn fills the HeaderInfo fields. -/
structure OpenEnv where
  detectedType : Option ℕ
  givenTypeProbeOk : Bool
  lseekOk : Bool
  errnoLseek : ℕ
  openOk : Bool
  errnoOpen : ℕ
  readHeaderOk : Bool
  errnoReadHeader : ℕ
  info : HeaderInfo
  seekOk : Bool
  errnoSeek : ℕ

/-- Result of open_soundfile_via_fd plus ghost observations: whether
the handler's t_closefn ran, whether sys_close(fd) ran, whether the
raw type was selected, and the sf_headersize value the descriptor held
when t_readheaderfn was invoked (none if it never ran). -/
structure OpenResult where
  ret : ℤ
  sf : t_soundfile
  errno : ℕ
  closefnCalled : Bool
  sysCloseCalled : Bool
  usedRaw : Bool
  headersizeAtHeaderRead : Option ℤ

/-- The badheader exit of open_soundfile_via_fd (lines 402-414):
errno defaults to EIO, the handler close runs when an open descriptor
and type are present (clearing the local fd), sf_fd is reset, and a
still-open local fd is closed directly. -/
def openBadheader (errno : ℕ) (fd : ℤ) (sf : t_soundfile)
    (usedRaw : Bool) (hsAtRead : Option ℤ) : OpenResult :=
  if 0 ≤ sf.sf_fd ∧ sf.sf_type.isSome then
    { ret := -1
      sf := { sf with sf_fd := -1 }
      errno := if errno = 0 then EIO else errno
      closefnCalled := true
      sysCloseCalled := false
      usedRaw := usedRaw
      headersizeAtHeaderRead := hsAtRead }
  else
    { ret := -1
      sf := { sf with sf_fd := -1 }
      errno := if errno = 0 then EIO else errno
      closefnCalled := false
      sysCloseCalled := decide (0 ≤ fd)
      usedRaw := usedRaw
      headersizeAtHeaderRead := hsAtRead }

/-- The descriptor after t_openfn recorded the fd and a successful
t_readheaderfn filled the format fields. -/
def openFilled (env : OpenEnv) (fd : ℤ) (sf1 : t_soundfile) :
    t_soundfile :=
  { sf1 with
    sf_fd := fd
    sf_samplerate := env.info.samplerate
    sf_nchannels := env.info.nchannels
    sf_bytespersample := env.info.bytespersample
    sf_bigendian := env.info.bigendian
    sf_headersize := env.info.headersize
    sf_bytelimit := env.info.bytelimit
    sf_bytesperframe := env.info.bytesperframe }

/-- open_soundfile_via_fd after a type has been selected (lines
386-400): t_openfn, t_readheaderfn, t_seektoframefn, then the
bytelimit decrement clamped at zero. -/
def openAfterProbe (env : OpenEnv) (fd : ℤ) (sf1 : t_soundfile)
    (skipframes : ℕ) (usedRaw : Bool) : OpenResult :=
  if env.openOk then
    if env.readHeaderOk then
      if env.seekOk then
        { ret := fd
          sf := { openFilled env fd sf1 with
            sf_bytelimit :=
              if env.info.bytelimit - env.info.bytesperframe * skipframes
                  < 0 then 0
              else env.info.bytelimit
                - env.info.bytesperframe * skipframes }
          errno := 0
          closefnCalled := false
          sysCloseCalled := false
          usedRaw := usedRaw
          headersizeAtHeaderRead := some sf1.sf_headersize }
      else
        openBadheader env.errnoSeek fd (openFilled env fd sf1)
          usedRaw (some sf1.sf_headersize)
    else
      openBadheader env.errnoReadHeader fd { sf1 with sf_fd := fd }
        usedRaw (some sf1.sf_headersize)
  else
    openBadheader env.errnoOpen fd sf1 usedRaw none

/-- open_soundfile_via_fd (lines 349-415).  errno is cleared on entry;
a nonnegative sf_headersize overrides detection and selects the raw
type; otherwise the registered types are probed (or the caller's
preselected type is checked) and the file is rewound before the header
is read. -/
def open_soundfile_via_fd (env : OpenEnv) (fd : ℤ) (sf0 : t_soundfile)
    (skipframes : ℕ) : OpenResult :=
  if 0 ≤ sf0.sf_headersize then
    openAfterProbe env fd { sf0 with sf_type := some sf_rawtype }
      skipframes true
  else
    match sf0.sf_type with
    | none =>
      match env.detectedType with
      | none => openBadheader 0 fd sf0 false none
      | some t =>
        if env.lseekOk then
          openAfterProbe env fd { sf0 with sf_type := some t } skipframes
            false
        else
          openBadheader env.errnoLseek fd { sf0 with sf_type := some t }
            false none
    | some _ =>
      if env.givenTypeProbeOk then
        if env.lseekOk then openAfterProbe env fd sf0 skipframes false
        else openBadheader env.errnoLseek fd sf0 false none
      else openBadheader 0 fd sf0 false none

/-- The readsf_open mapping from the message-level headersize argument
to the descriptor's sf_headersize (lines 2171-2172):
`(headersize > 0 ? headersize : (headersize == 0 ? -1 : 0))`. -/
def readsfOpenHeadersize (headersize : ℤ) : ℤ :=
  if 0 < headersize then headersize
  else if headersize = 0 then -1 else 0

/-- Concrete environment for the C5 witness: everything succeeds. -/
def envC5W : OpenEnv :=
  { detectedType := some 1
    givenTypeProbeOk := true
    lseekOk := true
    errnoLseek := 0
    openOk := true
    errnoOpen := 0
    readHeaderOk := true
    errnoReadHeader := 0
    info := { samplerate := 44100
              nchannels := 1
              bytespersample := 2
              bigendian := false
              headersize := 44
              bytelimit := 1000
              bytesperframe := 2 }
    seekOk := true
    errnoSeek := 0 }

/-- READSIZE (line 1584). -/
def READSIZE : ℕ := 65536

/-- WRITESIZE (line 1585). -/
def WRITESIZE : ℕ := 65536

/-- MAXVECSIZE (line 1582). -/
def MAXVECSIZE : ℕ := 128

/-- The fixed parameters of one streaming run of readsf~ / writesf~:
the frame size of the open file, the host vector size and the buffer
size chosen at construction. -/
structure RsfParams where
  bytesperframe : ℕ
  vecsize : ℕ
  bufsize : ℕ

/-- wantbytes of the audio callback (readsf_perform line 2020,
writesf_perform line 2538): vecsize * bytesperframe. -/
def wantbytesPerTick (p : RsfParams) : ℕ := p.vecsize * p.bytesperframe

/-- fifosize computed at stream start (lines 1769-1770, 2642-2643):
bufsize rounded down to a multiple of bytesperframe * MAXVECSIZE. -/
def fifosizeOf (p : RsfParams) : ℕ :=
  p.bufsize - p.bufsize % (p.bytesperframe * MAXVECSIZE)

/-- Sanity conditions on the parameters: positive frame and vector
sizes, a host vector size dividing MAXVECSIZE (Pd block sizes are
powers of two at most 128 when readsf~ is used as documented), and a
buffer holding at least one maximal tick. -/
def RsfParamsOk (p : RsfParams) : Prop :=
  0 < p.bytesperframe ∧ 0 < p.vecsize ∧ p.vecsize ∣ MAXVECSIZE
  ∧ p.bytesperframe * MAXVECSIZE ≤ p.bufsize

/-- The shared state of readsf~ touched by the streaming steps, plus
the ghost byte counters produced (bytes read from the file into the
fifo) and consumed (bytes the audio callback took out). -/
structure RsfState where
  fifohead : ℕ
  fifotail : ℕ
  fifosize : ℕ
  sigperiod : ℕ
  eof : Bool
  fileerror : Bool
  bytelimit : ℤ
  produced : ℕ
  consumed : ℕ

/-- State just after a successful OPEN request: readsf_open reset
head = tail = 0 (lines 2161-2162), the worker computed fifosize and
sigperiod (lines 1769-1779), eof and the error slot are clear and the
remaining bytelimit is the nonnegative value open_soundfile_via_fd
left. -/
def RsfInit (p : RsfParams) (s : RsfState) : Prop :=
  s.fifohead = 0 ∧ s.fifotail = 0 ∧ s.fifosize = fifosizeOf p
  ∧ s.sigperiod = s.fifosize / (16 * p.bytesperframe * p.vecsize)
  ∧ s.eof = false ∧ s.fileerror = false ∧ 0 ≤ s.bytelimit
  ∧ s.produced = 0 ∧ s.consumed = 0

/-- Commit of a successful read of b bytes by the worker
(lines 1875-1883): advance head with exact wrap at fifosize, debit
bytelimit, set eof when the limit is exhausted. -/
def rsfAdvance (s : RsfState) (b : ℕ) : RsfState :=
  { s with
    fifohead := if s.fifohead + b = s.fifosize then 0 else s.fifohead + b
    bytelimit := s.bytelimit - b
    eof := if s.bytelimit - b ≤ 0 then true else s.eof
    produced := s.produced + b }

/-- One successful read of the fill loop of readsf_child_main
(lines 1782-1892), reading b > 0 bytes.  With head at or past tail the
window runs to the end of the fifo, capped by READSIZE and bytelimit,
and is only taken if it does not fill the buffer completely (tail
nonzero, or more than READSIZE free before the end); with head behind
tail the worker reads only when at least READSIZE bytes fit in the gap
tail - head - 1, and then reads READSIZE capped by bytelimit. -/
inductive RsfProduce (p : RsfParams) : RsfState → ℕ → RsfState → Prop
  | ahead (s : RsfState) (b : ℕ)
      (hge : s.fifotail ≤ s.fifohead)
      (hguard : s.fifotail ≠ 0 ∨ READSIZE < s.fifosize - s.fifohead)
      (hb0 : 0 < b)
      (hble : b ≤ min (min (s.fifosize - s.fifohead) READSIZE)
        s.bytelimit.toNat) :
      RsfProduce p s b (rsfAdvance s b)
  | behind (s : RsfState) (b : ℕ)
      (hlt : s.fifohead < s.fifotail)
      (hguard : READSIZE ≤ s.fifotail - s.fifohead - 1)
      (hb0 : 0 < b)
      (hble : b ≤ min READSIZE s.bytelimit.toNat) :
      RsfProduce p s b (rsfAdvance s b)

/-- Consumption of one tick by readsf_perform (lines 2066-2071):
advance tail by wantbytes, resetting to 0 at or past fifosize. -/
def rsfConsume (p : RsfParams) (s : RsfState) : RsfState :=
  { s with
    fifotail := if s.fifosize ≤ s.fifotail + wantbytesPerTick p then 0
      else s.fifotail + wantbytesPerTick p
    consumed := s.consumed + wantbytesPerTick p }

/-- Interleaved steps of the reader after a stream start.  produce is
a successful worker read; produceEof and produceError record the
bytesread = 0 and bytesread < 0 outcomes (no index change); consume
is one audio tick, taken exactly when the callback's wait condition
`head >= tail && head < tail + wantbytes - 1` is false (written here
as head + 1 < tail + wantbytes); the eof-partial branch and the wait
iterations do not change the fifo indices. -/
inductive RsfStep (p : RsfParams) : RsfState → RsfState → Prop
  | produce (s : RsfState) (b : ℕ) (s' : RsfState) :
      RsfProduce p s b s' → RsfStep p s s'
  | produceEof (s : RsfState) : RsfStep p s { s with eof := true }
  | produceError (s : RsfState) : RsfStep p s { s with fileerror := true }
  | consume (s : RsfState)
      (hguard : ¬(s.fifotail ≤ s.fifohead ∧
        s.fifohead + 1 < s.fifotail + wantbytesPerTick p)) :
      RsfStep p s (rsfConsume p s)

/-- States of the reader reachable from a stream start. -/
inductive RsfReach (p : RsfParams) : RsfState → Prop
  | init (s : RsfState) : RsfInit p s → RsfReach p s
  | step (s s' : RsfState) : RsfReach p s → RsfStep p s s' → RsfReach p s'

/-- The inductive invariant of the reader's ring state. -/
def RsfInv (p : RsfParams) (s : RsfState) : Prop :=
  s.fifohead < s.fifosize ∧ s.fifotail < s.fifosize
  ∧ s.fifosize = fifosizeOf p
  ∧ wantbytesPerTick p ∣ s.fifotail
  ∧ s.fifohead = s.produced % s.fifosize
  ∧ s.fifotail = s.consumed % s.fifosize
  ∧ 0 ≤ s.bytelimit

/-- The shared state of writesf~ touched by the streaming steps, with
the ghost counters produced (bytes the audio callback encoded into the
fifo) and consumed (bytes the worker wrote to disk). -/
structure WsfState where
  fifohead : ℕ
  fifotail : ℕ
  fifosize : ℕ
  sigperiod : ℕ
  eof : Bool
  fileerror : Bool
  frameswritten : ℕ
  produced : ℕ
  consumed : ℕ

/-- State just after writesf_open (lines 2632-2647) and the worker's
OPEN success (lines 2364-2366): head = tail = 0, fifosize rounded from
bufsize, sigperiod for 16 nudges per buffer, frameswritten reset. -/
def WsfInit (p : RsfParams) (s : WsfState) : Prop :=
  s.fifohead = 0 ∧ s.fifotail = 0 ∧ s.fifosize = fifosizeOf p
  ∧ s.sigperiod = s.fifosize / (16 * (p.bytesperframe * p.vecsize))
  ∧ s.eof = false ∧ s.fileerror = false ∧ s.frameswritten = 0
  ∧ s.produced = 0 ∧ s.consumed = 0

/-- roominfifo of writesf_perform (lines 2539-2541):
`tail - head`, plus fifosize when that is <= 0. -/
def wsfRoom (s : WsfState) : ℕ :=
  if s.fifohead < s.fifotail then s.fifotail - s.fifohead
  else s.fifotail + s.fifosize - s.fifohead

/-- One audio tick of writesf_perform (lines 2555-2560): encode one
vector at head and advance head by wantbytes, resetting to 0 at or
past fifosize. -/
def wsfProduce (p : RsfParams) (s : WsfState) : WsfState :=
  { s with
    fifohead := if s.fifosize ≤ s.fifohead + wantbytesPerTick p then 0
      else s.fifohead + wantbytesPerTick p
    produced := s.produced + wantbytesPerTick p }

/-- writebytes of one drain iteration of writesf_child_main
(lines 2387-2390): up to the wrap point when head wrapped past tail,
else up to head; capped at READSIZE. -/
def wsfWritebytes (s : WsfState) : ℕ :=
  min ((if s.fifohead < s.fifotail then s.fifosize else s.fifohead)
    - s.fifotail) READSIZE

/-- One successful disk write of the worker (lines 2411-2434):
advance tail by writebytes with exact wrap, and account the frames
written. -/
def wsfConsume (p : RsfParams) (s : WsfState) : WsfState :=
  { s with
    fifotail := if s.fifotail + wsfWritebytes s = s.fifosize then 0
      else s.fifotail + wsfWritebytes s
    consumed := s.consumed + wsfWritebytes s
    frameswritten := s.frameswritten + wsfWritebytes s / p.bytesperframe }

/-- Interleaved steps of the writer after a stream start: produce is
one audio tick, gated by `roominfifo < wantbytes + 1` being false;
consume is one worker drain, gated by the condition of line 2382-2385
(head wrapped past tail, or at least WRITESIZE buffered, or a CLOSE
request draining a nonempty fifo); writeError is a short disk write
(fileerror set, no index change). -/
inductive WsfStep (p : RsfParams) : WsfState → WsfState → Prop
  | produce (s : WsfState)
      (hroom : wantbytesPerTick p + 1 ≤ wsfRoom s) :
      WsfStep p s (wsfProduce p s)
  | consume (s : WsfState)
      (hguard : s.fifohead < s.fifotail
        ∨ s.fifotail + WRITESIZE ≤ s.fifohead
        ∨ s.fifohead ≠ s.fifotail) :
      WsfStep p s (wsfConsume p s)
  | writeError (s : WsfState) : WsfStep p s { s with fileerror := true }

/-- States of the writer reachable from a stream start. -/
inductive WsfReach (p : RsfParams) : WsfState → Prop
  | init (s : WsfState) : WsfInit p s → WsfReach p s
  | step (s s' : WsfState) : WsfReach p s → WsfStep p s s' → WsfReach p s'

/-- The inductive invariant of the writer's ring state: indices in
range, head a multiple of the tick size, the fill count
produced - consumed nonnegative and at most fifosize - 1 (one empty
slot), and head sitting fill bytes past tail around the ring. -/
def WsfInv (p : RsfParams) (s : WsfState) : Prop :=
  s.fifohead < s.fifosize ∧ s.fifotail < s.fifosize
  ∧ s.fifosize = fifosizeOf p
  ∧ wantbytesPerTick p ∣ s.fifohead
  ∧ s.consumed ≤ s.produced
  ∧ s.produced - s.consumed ≤ s.fifosize - 1
  ∧ s.fifohead = (s.fifotail + (s.produced - s.consumed)) % s.fifosize

/-- Concrete parameters for the C1 counterexample and witnesses:
a mono 16-bit file (bytesperframe 2), vecsize 128, the default
262144-byte buffer, so fifosize = 262144 and wantbytes = 256. -/
def c1p : RsfParams := ⟨2, 128, 262144⟩

/-- Stream start of the counterexample run: a file with only 255 bytes
of sample data left (bytelimit 255), one byte short of a tick. -/
def c1s0 : RsfState :=
  ⟨0, 0, 262144, 64, false, false, 255, 0, 0⟩

/-- sigperiod computed by readsf_dsp (line 2200): note no factor 16. -/
def readsf_dsp_sigperiod (fifosize bytesperframe vecsize : ℕ) : ℕ :=
  fifosize / (bytesperframe * vecsize)

/-- sigperiod computed by writesf_dsp (lines 2690-2691). -/
def writesf_dsp_sigperiod (fifosize bytesperframe vecsize : ℕ) : ℕ :=
  fifosize / (16 * bytesperframe * vecsize)

theorem xferin_words_eq_sample (sf : t_soundfile) (interp32 : ℕ → ℚ)
    (nvecs : ℕ) (vecs : VStore) (framesread : ℕ) (buf : BStore)
    (nframes : ℕ) :
    soundfile_xferin_words sf interp32 nvecs vecs framesread buf nframes =
      soundfile_xferin_sample sf interp32 nvecs vecs framesread buf nframes :=
  rfl

/-- Reading back one frame-loop worth of upd2 writes on one channel. -/
theorem foldl_row_upd2 (g : ℕ → ℚ) (i fr : ℕ) (n : ℕ) (v : VStore)
    (c k : ℕ) :
    ((List.range n).foldl (fun v' j => upd2 v' i (fr + j) (g j)) v) c k
      = if c = i ∧ fr ≤ k ∧ k < fr + n then g (k - fr) else v c k := by
  induction n generalizing v with
  | zero =>
    simp only [List.range_zero, List.foldl_nil]
    rw [if_neg]; omega
  | succ n ih =>
    rw [List.range_succ, List.foldl_append, List.foldl_cons, List.foldl_nil]
    by_cases h : c = i ∧ k = fr + n
    · have hval : upd2 ((List.range n).foldl
          (fun v' j => upd2 v' i (fr + j) (g j)) v) i (fr + n) (g n) c k
          = g n := by
        simp only [upd2]; rw [if_pos ⟨h.1, h.2⟩]
      rw [hval, if_pos ⟨h.1, by omega, by omega⟩,
        show k - fr = n from by omega]
    · have hval : upd2 ((List.range n).foldl
          (fun v' j => upd2 v' i (fr + j) (g j)) v) i (fr + n) (g n) c k
          = ((List.range n).foldl (fun v' j => upd2 v' i (fr + j) (g j)) v)
            c k := by
        simp only [upd2]; rw [if_neg]; tauto
      rw [hval, ih]
      by_cases h2 : c = i ∧ fr ≤ k ∧ k < fr + n
      · rw [if_pos h2, if_pos ⟨h2.1, h2.2.1, by omega⟩]
      · rw [if_neg h2, if_neg ?_]
        rintro ⟨rfl, hk1, hk2⟩
        rcases Nat.lt_or_ge k (fr + n) with hlt | hge
        · exact h2 ⟨rfl, hk1, hlt⟩
        · exact h ⟨rfl, by omega⟩

/-- Reading back the channel loop of soundfile_xferin_sample: channels
below `m` carry the decoded values over `[fr, fr + n)`, everything else
is untouched. -/
theorem foldl_chans_upd2 (g : ℕ → ℕ → ℚ) (fr n : ℕ) (m : ℕ) (v0 : VStore)
    (c k : ℕ) :
    ((List.range m).foldl (fun v i => (List.range n).foldl
        (fun v' j => upd2 v' i (fr + j) (g i j)) v) v0) c k
      = if c < m ∧ fr ≤ k ∧ k < fr + n then g c (k - fr) else v0 c k := by
  induction m with
  | zero =>
    simp only [List.range_zero, List.foldl_nil]
    rw [if_neg]; omega
  | succ m ih =>
    rw [List.range_succ, List.foldl_append, List.foldl_cons, List.foldl_nil]
    rw [foldl_row_upd2]
    by_cases h : c = m ∧ fr ≤ k ∧ k < fr + n
    · rw [if_pos h, if_pos ⟨by omega, h.2.1, h.2.2⟩, h.1]
    · rw [if_neg h, ih]
      by_cases h2 : c < m ∧ fr ≤ k ∧ k < fr + n
      · rw [if_pos h2, if_pos ⟨by omega, h2.2.1, h2.2.2⟩]
      · rw [if_neg h2, if_neg ?_]
        rintro ⟨hc, hk1, hk2⟩
        rcases Nat.lt_succ_iff_lt_or_eq.mp hc with h3 | h3
        · exact h2 ⟨h3, hk1, hk2⟩
        · exact h ⟨h3, hk1, hk2⟩

/-- Reading back the zero-fill loop (lines 515-518): rows
`[a, a + len)` are zero on `[0, n)`, everything else untouched. -/
theorem foldl_zero_upd2 (a len n : ℕ) (v0 : VStore) (c k : ℕ) :
    ((List.range' a len).foldl (fun v i => (List.range n).foldl
        (fun v' j => upd2 v' i j (0 : ℚ)) v) v0) c k
      = if a ≤ c ∧ c < a + len ∧ k < n then 0 else v0 c k := by
  induction len generalizing a v0 with
  | zero =>
    simp only [List.range'_zero, List.foldl_nil]
    rw [if_neg]; omega
  | succ len ih =>
    rw [List.range'_succ, List.foldl_cons, ih]
    have hrow : ∀ v : VStore, ((List.range n).foldl
        (fun v' j => upd2 v' a j (0 : ℚ)) v) c k
        = if c = a ∧ k < n then 0 else v c k := by
      intro v
      have := foldl_row_upd2 (fun _ => (0 : ℚ)) a 0 n v c k
      simp only [Nat.zero_add] at this
      rw [this]
      by_cases h : c = a ∧ k < n
      · rw [if_pos ⟨h.1, by omega, by omega⟩, if_pos h]
      · rw [if_neg (by rintro ⟨rfl, h1, h2⟩; exact h ⟨rfl, by omega⟩),
          if_neg h]
    by_cases h2 : a + 1 ≤ c ∧ c < a + 1 + len ∧ k < n
    · rw [if_pos h2, if_pos ⟨by omega, by omega, h2.2.2⟩]
    · rw [if_neg h2, hrow]
      by_cases h3 : c = a ∧ k < n
      · rw [if_pos h3, if_pos ⟨by omega, by omega, h3.2⟩]
      · rw [if_neg h3, if_neg ?_]
        rintro ⟨h4, h5, h6⟩
        rcases Nat.lt_or_ge a c with h7 | h7
        · exact h2 ⟨by omega, by omega, h6⟩
        · exact h3 ⟨by omega, h6⟩

/-- Channels below min(nchannels, nvecs) carry the decoded values over
the transferred index range. -/
theorem xferin_sample_lookup_inrange (sf : t_soundfile) (interp32 : ℕ → ℚ)
    (nvecs : ℕ) (vecs : VStore) (framesread : ℕ) (buf : BStore)
    (nframes : ℕ) (c k : ℕ)
    (hsp : sf.sf_bytespersample = 2 ∨ sf.sf_bytespersample = 3 ∨
      sf.sf_bytespersample = 4)
    (hc : c < min sf.sf_nchannels nvecs)
    (hk1 : framesread ≤ k) (hk2 : k < framesread + nframes) :
    soundfile_xferin_sample sf interp32 nvecs vecs framesread buf nframes c k
      = xferinVal sf interp32 buf c (k - framesread) := by
  unfold soundfile_xferin_sample
  have hbody : (fun (v : VStore) (i : ℕ) =>
      if sf.sf_bytespersample = 2 ∨ sf.sf_bytespersample = 3 ∨
          sf.sf_bytespersample = 4 then
        (List.range nframes).foldl (fun v' j =>
          upd2 v' i (framesread + j) (xferinVal sf interp32 buf i j)) v
      else v)
      = fun (v : VStore) (i : ℕ) => (List.range nframes).foldl (fun v' j =>
          upd2 v' i (framesread + j) (xferinVal sf interp32 buf i j)) v := by
    funext v i; rw [if_pos hsp]
  rw [hbody, foldl_zero_upd2, if_neg (by omega), foldl_chans_upd2,
    if_pos ⟨hc, hk1, hk2⟩]

/-- Channels in [nchannels, nvecs) are zeroed on [0, nframes) by the
zero-fill loop. -/
theorem xferin_sample_lookup_zero (sf : t_soundfile) (interp32 : ℕ → ℚ)
    (nvecs : ℕ) (vecs : VStore) (framesread : ℕ) (buf : BStore)
    (nframes : ℕ) (c k : ℕ)
    (hc1 : sf.sf_nchannels ≤ c) (hc2 : c < nvecs) (hk : k < nframes) :
    soundfile_xferin_sample sf interp32 nvecs vecs framesread buf nframes c k
      = 0 := by
  unfold soundfile_xferin_sample
  rw [foldl_zero_upd2, if_pos ⟨hc1, by omega, hk⟩]

/-- Channels in [nchannels, nvecs) are untouched outside [0, nframes). -/
theorem xferin_sample_lookup_untouched (sf : t_soundfile)
    (interp32 : ℕ → ℚ) (nvecs : ℕ) (vecs : VStore) (framesread : ℕ)
    (buf : BStore) (nframes : ℕ) (c k : ℕ)
    (hc1 : sf.sf_nchannels ≤ c) (hk : nframes ≤ k) :
    soundfile_xferin_sample sf interp32 nvecs vecs framesread buf nframes c k
      = vecs c k := by
  unfold soundfile_xferin_sample
  rw [foldl_zero_upd2, if_neg (by omega)]
  rcases Classical.em (sf.sf_bytespersample = 2 ∨ sf.sf_bytespersample = 3 ∨
      sf.sf_bytespersample = 4) with hsp | hsp
  · have hbody : (fun (v : VStore) (i : ℕ) =>
        if sf.sf_bytespersample = 2 ∨ sf.sf_bytespersample = 3 ∨
            sf.sf_bytespersample = 4 then
          (List.range nframes).foldl (fun v' j =>
            upd2 v' i (framesread + j) (xferinVal sf interp32 buf i j)) v
        else v)
        = fun (v : VStore) (i : ℕ) => (List.range nframes).foldl
            (fun v' j =>
              upd2 v' i (framesread + j) (xferinVal sf interp32 buf i j)) v
        := by
      funext v i; rw [if_pos hsp]
    rw [hbody, foldl_chans_upd2, if_neg (by omega)]
  · have hbody : (fun (v : VStore) (i : ℕ) =>
        if sf.sf_bytespersample = 2 ∨ sf.sf_bytespersample = 3 ∨
            sf.sf_bytespersample = 4 then
          (List.range nframes).foldl (fun v' j =>
            upd2 v' i (framesread + j) (xferinVal sf interp32 buf i j)) v
        else v)
        = fun (v : VStore) (_ : ℕ) => v := by
      funext v i; rw [if_neg hsp]
    rw [hbody, List.foldl_fixed]

theorem asInt16_bounds (n : ℕ) : -32768 ≤ asInt16 n ∧ asInt16 n ≤ 32767 := by
  unfold asInt16; split_ifs with h <;> exact ⟨by omega, by omega⟩

/-- The int expression `(b0 << 24) | (b1 << 16)` of the 16-bit decoder
equals the signed 16-bit value of the two bytes shifted into the high
half of the 32-bit word. -/
theorem asInt32_hi16 (b0 b1 : ℕ) (h0 : b0 < 256) (h1 : b1 < 256) :
    asInt32 (b0 * 16777216 + b1 * 65536) = asInt16 (b0 * 256 + b1) * 65536
    := by
  unfold asInt32 asInt16
  rw [Nat.mod_eq_of_lt (show b0 * 16777216 + b1 * 65536 < 4294967296 by
      omega),
    Nat.mod_eq_of_lt (show b0 * 256 + b1 < 65536 by omega)]
  split_ifs <;> push_cast <;> omega

/-- At 16 bits the value written for channel i, frame j is the signed
16-bit integer of the two wire bytes (descriptor byte order) in the
high half of a 32-bit word, times SCALE. -/
theorem xferinVal_16 (sf : t_soundfile) (interp32 : ℕ → ℚ) (buf : BStore)
    (i j : ℕ) (h2 : sf.sf_bytespersample = 2) (hbuf : ∀ q, buf q < 256) :
    xferinVal sf interp32 buf i j
      = SCALE * ((asInt16 (if sf.sf_bigendian
            then buf (i * 2 + j * sf.sf_bytesperframe) * 256
              + buf (i * 2 + j * sf.sf_bytesperframe + 1)
            else buf (i * 2 + j * sf.sf_bytesperframe + 1) * 256
              + buf (i * 2 + j * sf.sf_bytesperframe)) * 65536 : ℤ) : ℚ)
    := by
  unfold xferinVal xferin16valBE xferin16valLE
  rw [h2, if_pos rfl]
  cases hb : sf.sf_bigendian
  · rw [if_neg (by simp), if_neg (by simp),
      asInt32_hi16 _ _ (hbuf _) (hbuf _)]
  · rw [if_pos rfl, if_pos rfl, asInt32_hi16 _ _ (hbuf _) (hbuf _)]

theorem decode16_inrange (s : ℤ) (h1 : -32768 ≤ s) (h2 : s ≤ 32767) :
    -1 ≤ SCALE * ((s * 65536 : ℤ) : ℚ) ∧ SCALE * ((s * 65536 : ℤ) : ℚ) < 1
    := by
  have he : SCALE * ((s * 65536 : ℤ) : ℚ) = (s : ℚ) / 32768 := by
    unfold SCALE; push_cast; ring
  have hq1 : (-32768 : ℚ) ≤ (s : ℚ) := by exact_mod_cast h1
  have hq2 : (s : ℚ) ≤ 32767 := by exact_mod_cast h2
  rw [he]
  constructor
  · rw [le_div_iff₀ (by norm_num : (0 : ℚ) < 32768)]; linarith
  · rw [div_lt_iff₀ (by norm_num : (0 : ℚ) < 32768)]; linarith

/-- C2: 16-bit decode.  For a descriptor with bytespersample = 2, every
channel c < min(nchannels, nvecs) and frame f < nframes, the sample
written at dst[c][framesread + f] by soundfile_xferin_sample and
soundfile_xferin_words is the signed 16-bit integer formed from the two
wire bytes (descriptor byte order) placed in the high 16 bits of a
32-bit word, multiplied by SCALE = 2^-31; the result lies in [-1, 1). -/
theorem c2_xferin_decode16 (sf : t_soundfile) (interp32 : ℕ → ℚ)
    (nvecs : ℕ) (vecs : VStore) (framesread : ℕ) (buf : BStore)
    (nframes : ℕ) (c f : ℕ)
    (h2 : sf.sf_bytespersample = 2) (hbuf : ∀ q, buf q < 256)
    (hc : c < min sf.sf_nchannels nvecs) (hf : f < nframes) :
    soundfile_xferin_sample sf interp32 nvecs vecs framesread buf nframes c
        (framesread + f)
      = SCALE * ((asInt16 (if sf.sf_bigendian
            then buf (c * 2 + f * sf.sf_bytesperframe) * 256
              + buf (c * 2 + f * sf.sf_bytesperframe + 1)
            else buf (c * 2 + f * sf.sf_bytesperframe + 1) * 256
              + buf (c * 2 + f * sf.sf_bytesperframe)) * 65536 : ℤ) : ℚ)
    ∧ soundfile_xferin_words sf interp32 nvecs vecs framesread buf nframes c
        (framesread + f)
      = SCALE * ((asInt16 (if sf.sf_bigendian
            then buf (c * 2 + f * sf.sf_bytesperframe) * 256
              + buf (c * 2 + f * sf.sf_bytesperframe + 1)
            else buf (c * 2 + f * sf.sf_bytesperframe + 1) * 256
              + buf (c * 2 + f * sf.sf_bytesperframe)) * 65536 : ℤ) : ℚ)
    ∧ -1 ≤ soundfile_xferin_sample sf interp32 nvecs vecs framesread buf
        nframes c (framesread + f)
    ∧ soundfile_xferin_sample sf interp32 nvecs vecs framesread buf nframes
        c (framesread + f) < 1 := by
  have hlook := xferin_sample_lookup_inrange sf interp32 nvecs vecs
    framesread buf nframes c (framesread + f) (Or.inl h2) hc
    (Nat.le_add_right _ _) (by omega)
  rw [show framesread + f - framesread = f from by omega] at hlook
  have hval := xferinVal_16 sf interp32 buf c f h2 hbuf
  have heq := hlook.trans hval
  have hbounds := decode16_inrange (asInt16 (if sf.sf_bigendian
      then buf (c * 2 + f * sf.sf_bytesperframe) * 256
        + buf (c * 2 + f * sf.sf_bytesperframe + 1)
      else buf (c * 2 + f * sf.sf_bytesperframe + 1) * 256
        + buf (c * 2 + f * sf.sf_bytesperframe)))
    (asInt16_bounds _).1 (asInt16_bounds _).2
  refine ⟨heq, ?_, ?_, ?_⟩
  · rw [xferin_words_eq_sample]; exact heq
  · rw [heq]; exact hbounds.1
  · rw [heq]; exact hbounds.2

theorem c2_xferin_decode16_witness :
    soundfile_xferin_sample sfC2W (fun _ => 0) 1 (fun _ _ => 0) 0
        (fun _ => 7) 1 0 (0 + 0)
      = SCALE * ((asInt16 (if sfC2W.sf_bigendian
          then (fun _ => 7) (0 * 2 + 0 * sfC2W.sf_bytesperframe) * 256
            + (fun _ => 7) (0 * 2 + 0 * sfC2W.sf_bytesperframe + 1)
          else (fun _ => 7) (0 * 2 + 0 * sfC2W.sf_bytesperframe + 1) * 256
            + (fun _ => 7) (0 * 2 + 0 * sfC2W.sf_bytesperframe)) * 65536
          : ℤ) : ℚ) := by
  have h := c2_xferin_decode16 sfC2W
    (fun _ => 0) 1 (fun _ _ => 0) 0 (fun _ => 7) 1 0 0 rfl
    (fun _ => by norm_num) (by norm_num [sfC2W]) (by norm_num)
  exact h.1

/-- C4 fails as stated: with framesread = 1, nframes = 1, one file
channel and two destination channels, the claim says dst[1][1] (the
transferred range) is zeroed; the code zeroes dst[1][0] and leaves
dst[1][1] untouched (the zero-fill loop starts at vecs[i], line 517). -/
theorem c4_xferin_zerofill_counterexample :
    soundfile_xferin_sample sfC4
        (fun _ => 0) 2 (fun _ _ => 5) 1 (fun _ => 0) 1 1 1 = 5
    ∧ ((5 : ℚ) = 0 → False) := by
  refine ⟨?_, by norm_num⟩
  rw [xferin_sample_lookup_untouched _ _ _ _ _ _ _ _ _
    (by norm_num [sfC4]) (by norm_num)]

/-- C4 amended: extra destination channels c with nchannels <= c < nvecs
are zeroed exactly on positions 0 .. nframes-1 (not offset by
framesread) and untouched elsewhere; decoded channels are written at
dst[c][framesread + f] for f < nframes. -/
theorem c4_xferin_zerofill_amended (sf : t_soundfile) (interp32 : ℕ → ℚ)
    (nvecs : ℕ) (vecs : VStore) (framesread : ℕ) (buf : BStore)
    (nframes : ℕ) :
    (∀ c k, sf.sf_nchannels ≤ c → c < nvecs →
      soundfile_xferin_sample sf interp32 nvecs vecs framesread buf nframes
          c k
        = if k < nframes then 0 else vecs c k)
    ∧ (∀ c k, sf.sf_nchannels ≤ c → c < nvecs →
      soundfile_xferin_words sf interp32 nvecs vecs framesread buf nframes
          c k
        = if k < nframes then 0 else vecs c k)
    ∧ (∀ c f, (sf.sf_bytespersample = 2 ∨ sf.sf_bytespersample = 3 ∨
        sf.sf_bytespersample = 4) → c < min sf.sf_nchannels nvecs →
        f < nframes →
      soundfile_xferin_sample sf interp32 nvecs vecs framesread buf nframes
          c (framesread + f)
        = xferinVal sf interp32 buf c f) := by
  have hzero : ∀ c k, sf.sf_nchannels ≤ c → c < nvecs →
      soundfile_xferin_sample sf interp32 nvecs vecs framesread buf nframes
          c k
        = if k < nframes then 0 else vecs c k := by
    intro c k hc1 hc2
    rcases Nat.lt_or_ge k nframes with hk | hk
    · rw [if_pos hk,
        xferin_sample_lookup_zero sf interp32 nvecs vecs framesread buf
          nframes c k hc1 hc2 hk]
    · rw [if_neg (by omega),
        xferin_sample_lookup_untouched sf interp32 nvecs vecs framesread buf
          nframes c k hc1 hk]
  refine ⟨hzero, ?_, ?_⟩
  · intro c k hc1 hc2
    rw [xferin_words_eq_sample]; exact hzero c k hc1 hc2
  · intro c f hsp hc hf
    rw [xferin_sample_lookup_inrange sf interp32 nvecs vecs framesread buf
      nframes c (framesread + f) hsp hc (Nat.le_add_right _ _) (by omega),
      show framesread + f - framesread = f from by omega]

theorem c4_xferin_zerofill_amended_witness :
    soundfile_xferin_sample sfC4
        (fun _ => 0) 2 (fun _ _ => 5) 1 (fun _ => 0) 1 1 0
      = if 0 < 1 then 0 else (fun _ _ => (5 : ℚ)) 1 0 :=
  (c4_xferin_zerofill_amended sfC4
    (fun _ => 0) 2 (fun _ _ => 5) 1 (fun _ => 0) 1).1 1 0
    (by norm_num [sfC4]) (by norm_num)

theorem xferout_words_eq_sample (sf : t_soundfile) (bits32 : ℚ → ℕ)
    (vecs : VStore) (buf : BStore) (nframes onsetframes : ℕ)
    (normalfactor : ℚ) :
    soundfile_xferout_words sf bits32 vecs buf nframes onsetframes
        normalfactor
      = soundfile_xferout_sample sf bits32 vecs buf nframes onsetframes
        normalfactor := rfl

theorem upd1_self (b : BStore) (p x : ℕ) : upd1 b p x p = x := by
  simp [upd1]

theorem upd1_other (b : BStore) (p x q : ℕ) (h : q ≠ p) :
    upd1 b p x q = b q := by
  simp [upd1, h]

/-- A frame loop whose windows all avoid `q` leaves `q` unchanged. -/
theorem foldl_bytes_row_untouched (bps bpf : ℕ)
    (W : ℕ → ℕ → BStore → BStore) (β : ℕ → ℕ → ℕ → ℕ)
    (hW : ∀ i j b q, W i j b q = if i * bps + j * bpf ≤ q ∧
      q < i * bps + j * bpf + bps then β i j (q - (i * bps + j * bpf))
      else b q)
    (i n q : ℕ)
    (hq : ∀ j, j < n → ¬(i * bps + j * bpf ≤ q ∧
      q < i * bps + j * bpf + bps))
    (b : BStore) :
    ((List.range n).foldl (fun b' j => W i j b') b) q = b q := by
  induction n with
  | zero => rw [List.range_zero, List.foldl_nil]
  | succ n ih =>
    rw [List.range_succ, List.foldl_append, List.foldl_cons, List.foldl_nil,
      hW, if_neg (hq n (by omega))]
    exact ih (fun j hj => hq j (by omega))

/-- Reading the byte written for frame `f`, offset `o` back out of the
frame loop of channel `i`. -/
theorem foldl_bytes_row_lookup (bps bpf : ℕ)
    (W : ℕ → ℕ → BStore → BStore) (β : ℕ → ℕ → ℕ → ℕ)
    (hW : ∀ i j b q, W i j b q = if i * bps + j * bpf ≤ q ∧
      q < i * bps + j * bpf + bps then β i j (q - (i * bps + j * bpf))
      else b q)
    (i n f o : ℕ) (hf : f < n) (ho : o < bps) (hle : bps ≤ bpf)
    (b : BStore) :
    ((List.range n).foldl (fun b' j => W i j b') b)
      (i * bps + f * bpf + o) = β i f o := by
  induction n with
  | zero => omega
  | succ n ih =>
    rw [List.range_succ, List.foldl_append, List.foldl_cons, List.foldl_nil,
      hW]
    rcases Nat.lt_or_ge f n with hfn | hfn
    · rw [if_neg ?_]
      · exact ih hfn
      · have h1 : (f + 1) * bpf ≤ n * bpf :=
          Nat.mul_le_mul_right _ (by omega)
        have h2 : f * bpf + bpf = (f + 1) * bpf := by ring
        rintro ⟨hlow, hhigh⟩
        have h3 : f * bpf + o < n * bpf := by linarith
        linarith
    · have hfe : f = n := by omega
      subst hfe
      rw [if_pos ⟨Nat.le_add_right _ _, by linarith⟩]
      congr 1
      exact Nat.add_sub_cancel_left _ _

/-- Reading the byte written for channel `c`, frame `f`, offset `o`
back out of the full channel loop: all other writes land at different
byte positions once `nchannels * bps` fits inside `bpf`. -/
theorem foldl_bytes_chans_lookup (bps bpf : ℕ)
    (W : ℕ → ℕ → BStore → BStore) (β : ℕ → ℕ → ℕ → ℕ)
    (hW : ∀ i j b q, W i j b q = if i * bps + j * bpf ≤ q ∧
      q < i * bps + j * bpf + bps then β i j (q - (i * bps + j * bpf))
      else b q)
    (m n c f o : ℕ) (hc : c < m) (hf : f < n) (ho : o < bps)
    (hm : m * bps ≤ bpf) (b : BStore) :
    ((List.range m).foldl (fun b' i => (List.range n).foldl
        (fun b'' j => W i j b'') b') b) (c * bps + f * bpf + o)
      = β c f o := by
  induction m with
  | zero => omega
  | succ m ih =>
    rw [List.range_succ, List.foldl_append, List.foldl_cons, List.foldl_nil]
    have hbb : bps ≤ bpf := by
      have h1 : 1 * bps ≤ (m + 1) * bps := Nat.mul_le_mul_right _ (by omega)
      rw [one_mul] at h1
      exact le_trans h1 hm
    rcases Nat.lt_or_ge c m with hcm | hcm
    · rw [foldl_bytes_row_untouched bps bpf W β hW m n _ ?_ _]
      · exact ih hcm (le_trans (Nat.mul_le_mul_right _ (by omega)) hm)
      · intro j hj
        rintro ⟨hlow, hhigh⟩
        have hco : c * bps + o < m * bps := by
          have h1 : (c + 1) * bps ≤ m * bps :=
            Nat.mul_le_mul_right _ (by omega)
          have h2 : (c + 1) * bps = c * bps + bps := by ring
          linarith
        have hmm : (m + 1) * bps = m * bps + bps := by ring
        rcases lt_trichotomy j f with hjf | hjf | hjf
        · have h2 : (j + 1) * bpf ≤ f * bpf :=
            Nat.mul_le_mul_right _ (by omega)
          have h3 : (j + 1) * bpf = j * bpf + bpf := by ring
          linarith [Nat.zero_le (c * bps), Nat.zero_le o]
        · subst hjf; linarith [Nat.zero_le (c * bps), Nat.zero_le o]
        · have h2 : (f + 1) * bpf ≤ j * bpf :=
            Nat.mul_le_mul_right _ (by omega)
          have h3 : (f + 1) * bpf = f * bpf + bpf := by ring
          linarith [Nat.zero_le (c * bps), Nat.zero_le o]
    · have hce : c = m := by omega
      subst hce
      exact foldl_bytes_row_lookup bps bpf W β hW c n f o hf ho hbb _

/-- The offset-then-truncate idiom `(int)(M. + v) - M` of the encoders
followed by the clamp to [-(M-1), M-1] computes the clamped floor of
`v`: for `M + v >= 0` truncation toward zero is the floor and the
offset cancels; for `M + v < 0` both sides are clamped to -(M-1). -/
theorem ctrunc_offset_clamp (M : ℤ) (ff x : ℚ) :
    cClamp (-(M - 1)) (M - 1) (ctrunc ((M : ℚ) + x * ff) - M)
      = cClamp (-(M - 1)) (M - 1) ⌊x * ff⌋ := by
  unfold ctrunc
  rcases le_or_lt 0 ((M : ℚ) + x * ff) with h | h
  · rw [if_pos h]
    congr 1
    rw [show (M : ℚ) + x * ff = x * ff + (M : ℤ) by ring,
      Int.floor_add_int, Int.add_sub_cancel]
  · rw [if_neg (by linarith)]
    have h2 : x * ff < -(M : ℚ) := by linarith
    have h3 : ⌈x * ff⌉ ≤ -M := by
      rw [Int.ceil_le]; push_cast; linarith
    have h4 : ⌊x * ff⌋ ≤ -M := le_trans (Int.floor_le_ceil _) h3
    have h5 : ⌈(M : ℚ) + x * ff⌉ = ⌈x * ff⌉ + M := by
      rw [show (M : ℚ) + x * ff = x * ff + (M : ℤ) by ring,
        Int.ceil_add_int]
    rw [h5, Int.add_sub_cancel]
    unfold cClamp
    rw [if_pos (show ⌈x * ff⌉ < -(M - 1) by omega),
      if_pos (show ⌊x * ff⌋ < -(M - 1) by omega)]

theorem xferout16val_floor (ff x : ℚ) :
    xferout16val ff x = cClamp (-32767) 32767 ⌊x * ff⌋ := by
  have h := ctrunc_offset_clamp 32768 ff x
  norm_num at h
  unfold xferout16val
  exact h

theorem xferout24val_floor (ff x : ℚ) :
    xferout24val ff x = cClamp (-8388607) 8388607 ⌊x * ff⌋ := by
  have h := ctrunc_offset_clamp 8388608 ff x
  norm_num at h
  unfold xferout24val
  exact h

/-- Window form of the two byte writes of one 16-bit frame encode. -/
theorem xferoutWrite_window16 (sf : t_soundfile) (bits32 : ℚ → ℕ)
    (nf x : ℚ) (h2 : sf.sf_bytespersample = 2) (base : ℕ) (b : BStore)
    (q : ℕ) :
    xferoutWrite sf bits32 nf x base b q
      = if base ≤ q ∧ q < base + 2 then
          (if sf.sf_bigendian then
            (if q - base = 0 then
              cByte (cshr (xferout16val (nf * 32768) x) 8)
             else cByte (xferout16val (nf * 32768) x))
           else
            (if q - base = 0 then cByte (xferout16val (nf * 32768) x)
             else cByte (cshr (xferout16val (nf * 32768) x) 8)))
        else b q := by
  unfold xferoutWrite
  rw [h2, if_pos rfl]
  cases hb : sf.sf_bigendian
  · simp only [Bool.false_eq_true, if_false]
    by_cases hq0 : q = base
    · subst hq0
      rw [upd1_self, if_pos ⟨le_refl _, by omega⟩,
        if_pos (by omega)]
    · rw [upd1_other _ _ _ _ hq0]
      by_cases hq1 : q = base + 1
      · subst hq1
        rw [upd1_self, if_pos ⟨by omega, by omega⟩, if_neg (by omega)]
      · rw [upd1_other _ _ _ _ hq1, if_neg (by omega)]
  · simp only [if_true]
    by_cases hq1 : q = base + 1
    · subst hq1
      rw [upd1_self, if_pos ⟨by omega, by omega⟩, if_neg (by omega)]
    · rw [upd1_other _ _ _ _ hq1]
      by_cases hq0 : q = base
      · subst hq0
        rw [upd1_self, if_pos ⟨le_refl _, by omega⟩, if_pos (by omega)]
      · rw [upd1_other _ _ _ _ hq0, if_neg (by omega)]

/-- C3 fails as stated: at sample x = 3/65536 with normfactor 1 the
product x * 32768 is 1.5; the encoder truncates the offset sum
(computing floor, giving 1) while the claim's round gives 2. -/
theorem ctrunc_intCast (n : ℤ) : ctrunc ((n : ℤ) : ℚ) = n := by
  unfold ctrunc
  split_ifs with h
  · exact Int.floor_intCast n
  · exact Int.ceil_intCast n

theorem c3_xferout_encode_counterexample :
    xferout16val (1 * 32768) (3 / 65536) = 1
    ∧ cClamp (-32767) 32767 (round ((3 : ℚ) / 65536 * (1 * 32768))) = 2
    ∧ ((1 : ℤ) = 2 → False) := by
  refine ⟨?_, ?_, by decide⟩
  · unfold xferout16val ctrunc
    rw [if_pos (by norm_num),
      show (32768 : ℚ) + 3 / 65536 * (1 * 32768) = 65539 / 2 by norm_num,
      show ⌊(65539 : ℚ) / 2⌋ = 32769 by
        rw [Int.floor_eq_iff]
        norm_num]
    decide
  · rw [show (3 : ℚ) / 65536 * (1 * 32768) = 3 / 2 by norm_num, round_eq,
      show (3 : ℚ) / 2 + 1 / 2 = ((2 : ℤ) : ℚ) by norm_num,
      Int.floor_intCast]
    decide

theorem xferout16val_one : xferout16val (1 * 32768) 1 = 32767 := by
  unfold xferout16val
  rw [show (32768 : ℚ) + 1 * (1 * 32768) = ((65536 : ℤ) : ℚ) by norm_num,
    ctrunc_intCast]
  decide

theorem xferout16val_negone : xferout16val (1 * 32768) (-1) = -32767 := by
  unfold xferout16val
  rw [show (32768 : ℚ) + (-1) * (1 * 32768) = ((0 : ℤ) : ℚ) by norm_num,
    ctrunc_intCast]
  decide

theorem xferout24val_one : xferout24val (1 * 8388608) 1 = 8388607 := by
  unfold xferout24val
  rw [show (8388608 : ℚ) + 1 * (1 * 8388608) = ((16777216 : ℤ) : ℚ) by
      norm_num,
    ctrunc_intCast]
  decide

theorem xferout24val_negone : xferout24val (1 * 8388608) (-1) = -8388607
    := by
  unfold xferout24val
  rw [show (8388608 : ℚ) + (-1) * (1 * 8388608) = ((0 : ℤ) : ℚ) by norm_num,
    ctrunc_intCast]
  decide

/-- C3 amended: the encoded wire value is
clamp(floor(x * normfactor * 2^(w-1)), -(2^(w-1)-1), 2^(w-1)-1) — the
conversion truncates the offset sum, which is a floor, not a round —
packed in the requested byte order; the boundary values of the claim
(x = 1 encodes to 32767, x = -1 to -32767, and ±8388607 at 24-bit)
hold as stated. -/
theorem c3_xferout_encode_amended :
    (∀ ff x : ℚ, xferout16val ff x = cClamp (-32767) 32767 ⌊x * ff⌋)
    ∧ (∀ ff x : ℚ, xferout24val ff x = cClamp (-8388607) 8388607 ⌊x * ff⌋)
    ∧ xferout16val (1 * 32768) 1 = 32767
    ∧ xferout16val (1 * 32768) (-1) = -32767
    ∧ xferout24val (1 * 8388608) 1 = 8388607
    ∧ xferout24val (1 * 8388608) (-1) = -8388607
    ∧ (∀ (sf : t_soundfile) (bits32 : ℚ → ℕ) (vecs : VStore)
        (buf : BStore) (nframes onsetframes : ℕ) (normalfactor : ℚ)
        (c f : ℕ),
        sf.sf_bytespersample = 2 →
        sf.sf_nchannels * 2 ≤ sf.sf_bytesperframe →
        c < sf.sf_nchannels → f < nframes →
        soundfile_xferout_sample sf bits32 vecs buf nframes onsetframes
            normalfactor (c * 2 + f * sf.sf_bytesperframe)
          = (if sf.sf_bigendian
              then cByte (cshr (xferout16val (normalfactor * 32768)
                (vecs c (onsetframes + f))) 8)
              else cByte (xferout16val (normalfactor * 32768)
                (vecs c (onsetframes + f))))
        ∧ soundfile_xferout_sample sf bits32 vecs buf nframes onsetframes
            normalfactor (c * 2 + f * sf.sf_bytesperframe + 1)
          = (if sf.sf_bigendian
              then cByte (xferout16val (normalfactor * 32768)
                (vecs c (onsetframes + f)))
              else cByte (cshr (xferout16val (normalfactor * 32768)
                (vecs c (onsetframes + f))) 8))
        ∧ soundfile_xferout_words sf bits32 vecs buf nframes onsetframes
            normalfactor
          = soundfile_xferout_sample sf bits32 vecs buf nframes
            onsetframes normalfactor) := by
  refine ⟨xferout16val_floor, xferout24val_floor, xferout16val_one,
    xferout16val_negone, xferout24val_one, xferout24val_negone, ?_⟩
  intro sf bits32 vecs buf nframes onsetframes normalfactor c f h2 hbpf hc hf
  have hfold : soundfile_xferout_sample sf bits32 vecs buf nframes
      onsetframes normalfactor
      = (List.range sf.sf_nchannels).foldl (fun b' i =>
          (List.range nframes).foldl (fun b'' j =>
            xferoutWrite sf bits32 normalfactor (vecs i (onsetframes + j))
              (i * 2 + j * sf.sf_bytesperframe) b'') b') buf := by
    unfold soundfile_xferout_sample
    simp only [h2]
  have hW : ∀ i j b q, xferoutWrite sf bits32 normalfactor
      (vecs i (onsetframes + j)) (i * 2 + j * sf.sf_bytesperframe) b q
      = if i * 2 + j * sf.sf_bytesperframe ≤ q ∧
          q < i * 2 + j * sf.sf_bytesperframe + 2 then
          (if sf.sf_bigendian then
            (if q - (i * 2 + j * sf.sf_bytesperframe) = 0 then
              cByte (cshr (xferout16val (normalfactor * 32768)
                (vecs i (onsetframes + j))) 8)
             else cByte (xferout16val (normalfactor * 32768)
              (vecs i (onsetframes + j))))
           else
            (if q - (i * 2 + j * sf.sf_bytesperframe) = 0 then
              cByte (xferout16val (normalfactor * 32768)
                (vecs i (onsetframes + j)))
             else cByte (cshr (xferout16val (normalfactor * 32768)
              (vecs i (onsetframes + j))) 8)))
        else b q := fun i j b q =>
    xferoutWrite_window16 sf bits32 normalfactor (vecs i (onsetframes + j))
      h2 (i * 2 + j * sf.sf_bytesperframe) b q
  refine ⟨?_, ?_, xferout_words_eq_sample _ _ _ _ _ _ _⟩
  · have h := foldl_bytes_chans_lookup 2 sf.sf_bytesperframe
      (fun i j b'' => xferoutWrite sf bits32 normalfactor
        (vecs i (onsetframes + j)) (i * 2 + j * sf.sf_bytesperframe) b'')
      (fun i j o => (if sf.sf_bigendian then
          (if o = 0 then cByte (cshr (xferout16val (normalfactor * 32768)
            (vecs i (onsetframes + j))) 8)
           else cByte (xferout16val (normalfactor * 32768)
            (vecs i (onsetframes + j))))
         else
          (if o = 0 then cByte (xferout16val (normalfactor * 32768)
            (vecs i (onsetframes + j)))
           else cByte (cshr (xferout16val (normalfactor * 32768)
            (vecs i (onsetframes + j))) 8))))
      hW sf.sf_nchannels nframes c f 0 hc hf (by omega) hbpf buf
    rw [hfold]
    simpa using h
  · have h := foldl_bytes_chans_lookup 2 sf.sf_bytesperframe
      (fun i j b'' => xferoutWrite sf bits32 normalfactor
        (vecs i (onsetframes + j)) (i * 2 + j * sf.sf_bytesperframe) b'')
      (fun i j o => (if sf.sf_bigendian then
          (if o = 0 then cByte (cshr (xferout16val (normalfactor * 32768)
            (vecs i (onsetframes + j))) 8)
           else cByte (xferout16val (normalfactor * 32768)
            (vecs i (onsetframes + j))))
         else
          (if o = 0 then cByte (xferout16val (normalfactor * 32768)
            (vecs i (onsetframes + j)))
           else cByte (cshr (xferout16val (normalfactor * 32768)
            (vecs i (onsetframes + j))) 8))))
      hW sf.sf_nchannels nframes c f 1 hc hf (by omega) hbpf buf
    rw [hfold]
    simpa using h

theorem c3_xferout_encode_amended_witness :
    soundfile_xferout_sample sfC3W (fun _ => 0) (fun _ _ => 1) (fun _ => 0)
        1 0 1 (0 * 2 + 0 * sfC3W.sf_bytesperframe)
      = (if sfC3W.sf_bigendian
          then cByte (cshr (xferout16val ((1 : ℚ) * 32768)
            ((fun _ _ => (1 : ℚ)) 0 (0 + 0))) 8)
          else cByte (xferout16val ((1 : ℚ) * 32768)
            ((fun _ _ => (1 : ℚ)) 0 (0 + 0)))) :=
  (c3_xferout_encode_amended.2.2.2.2.2.2 sfC3W (fun _ => 0) (fun _ _ => 1)
    (fun _ => 0) 1 0 1 0 0 rfl (by norm_num [sfC3W]) (by norm_num [sfC3W])
    (by norm_num)).1

/-- C9: 32-bit float round trip.  The 4-byte encode branch of
soundfile_xferout_sample splits the 32-bit pattern `f2.ui` into four
wire bytes; the 4-byte decode branch of soundfile_xferin_sample
reassembles `alias.ui` from them.  For normfactor = 1 the C float
multiplication `*fp * normalfactor` is the identity on the bit pattern
of every finite non-NaN IEEE-754 single, so bit-exactness of
encode-then-decode is exactly that the reassembled pattern equals the
original, at either byte order. -/
theorem c9_float32_roundtrip (w : ℕ) (hw : w < 4294967296) :
    xferin32patBE (xferout32byteBE w 0) (xferout32byteBE w 1)
      (xferout32byteBE w 2) (xferout32byteBE w 3) = w
    ∧ xferin32patLE (xferout32byteLE w 0) (xferout32byteLE w 1)
      (xferout32byteLE w 2) (xferout32byteLE w 3) = w := by
  unfold xferin32patBE xferin32patLE xferout32byteBE xferout32byteLE
  norm_num
  omega

theorem c9_float32_roundtrip_witness :
    xferin32patBE (xferout32byteBE 3141592653 0) (xferout32byteBE 3141592653
        1) (xferout32byteBE 3141592653 2) (xferout32byteBE 3141592653 3)
      = 3141592653 :=
  (c9_float32_roundtrip 3141592653 (by norm_num)).1

/-- C10: for every pair of creation arguments, readsf_new and
writesf_new produce a channel count in [1, 64] and a buffer size in
[MINBUFSIZE = 262144, MAXBUFSIZE = 16777216], with buffer size
262144 bytes per (clamped) channel when the size argument is <= 0. -/
theorem c10_new_clamp (nchannels bufsize : ℤ) :
    1 ≤ (readsf_new_clamp nchannels bufsize).1
    ∧ (readsf_new_clamp nchannels bufsize).1 ≤ 64
    ∧ 262144 ≤ (readsf_new_clamp nchannels bufsize).2
    ∧ (readsf_new_clamp nchannels bufsize).2 ≤ 16777216
    ∧ (bufsize ≤ 0 → (readsf_new_clamp nchannels bufsize).2
        = 262144 * (readsf_new_clamp nchannels bufsize).1)
    ∧ writesf_new_clamp nchannels bufsize
        = readsf_new_clamp nchannels bufsize := by
  unfold readsf_new_clamp writesf_new_clamp
  refine ⟨?_, ?_, ?_, ?_, ?_, rfl⟩ <;> dsimp only <;> split_ifs <;> omega

theorem c10_new_clamp_witness :
    (readsf_new_clamp 0 (-5)).2 = 262144 * (readsf_new_clamp 0 (-5)).1 :=
  (c10_new_clamp 0 (-5)).2.2.2.2.1 (by norm_num)

theorem openBadheader_spec (e : ℕ) (fd : ℤ) (sf : t_soundfile)
    (u : Bool) (hs : Option ℤ) (hfd : 0 ≤ fd) :
    (openBadheader e fd sf u hs).ret = -1
    ∧ (openBadheader e fd sf u hs).sf.sf_fd = -1
    ∧ (openBadheader e fd sf u hs).errno ≠ 0
    ∧ (e = 0 → (openBadheader e fd sf u hs).errno = EIO)
    ∧ ((openBadheader e fd sf u hs).closefnCalled = true
        ∨ (openBadheader e fd sf u hs).sysCloseCalled = true) := by
  unfold openBadheader
  split_ifs with h1 h2 h3
  · exact ⟨rfl, rfl, (by decide : EIO ≠ 0), fun _ => rfl, Or.inl rfl⟩
  · exact ⟨rfl, rfl, h2, fun h => absurd h h2, Or.inl rfl⟩
  · exact ⟨rfl, rfl, (by decide : EIO ≠ 0), fun _ => rfl,
      Or.inr (decide_eq_true hfd)⟩
  · exact ⟨rfl, rfl, h3, fun h => absurd h h3,
      Or.inr (decide_eq_true hfd)⟩

theorem openBadheader_usedRaw (e : ℕ) (fd : ℤ) (sf : t_soundfile)
    (u : Bool) (hs : Option ℤ) : (openBadheader e fd sf u hs).usedRaw = u
    := by
  unfold openBadheader; split_ifs <;> rfl

theorem openBadheader_hsAtRead (e : ℕ) (fd : ℤ) (sf : t_soundfile)
    (u : Bool) (hs : Option ℤ) :
    (openBadheader e fd sf u hs).headersizeAtHeaderRead = hs := by
  unfold openBadheader; split_ifs <;> rfl

theorem openAfterProbe_spec (env : OpenEnv) (fd : ℤ) (sf1 : t_soundfile)
    (skipframes : ℕ) (u : Bool) (hfd : 0 ≤ fd) :
    ((openAfterProbe env fd sf1 skipframes u).ret = fd
      ∨ (openAfterProbe env fd sf1 skipframes u).ret = -1)
    ∧ ((openAfterProbe env fd sf1 skipframes u).ret = -1 →
        (openAfterProbe env fd sf1 skipframes u).sf.sf_fd = -1
        ∧ (openAfterProbe env fd sf1 skipframes u).errno ≠ 0
        ∧ ((openAfterProbe env fd sf1 skipframes u).closefnCalled = true
          ∨ (openAfterProbe env fd sf1 skipframes u).sysCloseCalled = true))
    ∧ (env.errnoOpen = 0 → env.errnoReadHeader = 0 → env.errnoSeek = 0 →
        (openAfterProbe env fd sf1 skipframes u).ret = -1 →
        (openAfterProbe env fd sf1 skipframes u).errno = EIO)
    ∧ ((openAfterProbe env fd sf1 skipframes u).ret = fd →
        (openAfterProbe env fd sf1 skipframes u).sf.sf_fd = fd
        ∧ (openAfterProbe env fd sf1 skipframes u).sf.sf_nchannels
          = env.info.nchannels
        ∧ (openAfterProbe env fd sf1 skipframes u).sf.sf_bytespersample
          = env.info.bytespersample
        ∧ (openAfterProbe env fd sf1 skipframes u).sf.sf_headersize
          = env.info.headersize
        ∧ 0 ≤ (openAfterProbe env fd sf1 skipframes u).sf.sf_bytelimit)
    := by
  unfold openAfterProbe
  by_cases h1 : env.openOk
  · rw [if_pos h1]
    by_cases h2 : env.readHeaderOk
    · rw [if_pos h2]
      by_cases h3 : env.seekOk
      · rw [if_pos h3]
        refine ⟨Or.inl rfl, ?_, ?_, ?_⟩
        · intro h; exact absurd (show fd = -1 from h) (by omega)
        · intro _ _ _ h; exact absurd (show fd = -1 from h) (by omega)
        · intro _
          refine ⟨rfl, rfl, rfl, rfl, ?_⟩
          show (0 : ℤ) ≤ if env.info.bytelimit
              - env.info.bytesperframe * skipframes < 0 then 0
            else env.info.bytelimit - env.info.bytesperframe * skipframes
          split_ifs with h4
          · exact le_refl 0
          · exact not_lt.mp h4
      · rw [if_neg h3]
        have h := openBadheader_spec env.errnoSeek fd
          (openFilled env fd sf1) u (some sf1.sf_headersize) hfd
        refine ⟨Or.inr h.1, fun _ => ⟨h.2.1, h.2.2.1, h.2.2.2.2⟩, ?_, ?_⟩
        · intro _ _ he _; exact h.2.2.2.1 he
        · intro hr; rw [h.1] at hr; exact absurd hr.symm (by omega)
    · rw [if_neg h2]
      have h := openBadheader_spec env.errnoReadHeader fd
        { sf1 with sf_fd := fd } u (some sf1.sf_headersize) hfd
      refine ⟨Or.inr h.1, fun _ => ⟨h.2.1, h.2.2.1, h.2.2.2.2⟩, ?_, ?_⟩
      · intro _ he _ _; exact h.2.2.2.1 he
      · intro hr; rw [h.1] at hr; exact absurd hr.symm (by omega)
  · rw [if_neg h1]
    have h := openBadheader_spec env.errnoOpen fd sf1 u none hfd
    refine ⟨Or.inr h.1, fun _ => ⟨h.2.1, h.2.2.1, h.2.2.2.2⟩, ?_, ?_⟩
    · intro he _ _ _; exact h.2.2.2.1 he
    · intro hr; rw [h.1] at hr; exact absurd hr.symm (by omega)

theorem openAfterProbe_usedRaw (env : OpenEnv) (fd : ℤ)
    (sf1 : t_soundfile) (skipframes : ℕ) (u : Bool) :
    (openAfterProbe env fd sf1 skipframes u).usedRaw = u := by
  unfold openAfterProbe
  split_ifs <;> first
    | rfl
    | rw [openBadheader_usedRaw]

theorem openAfterProbe_hsAtRead (env : OpenEnv) (fd : ℤ)
    (sf1 : t_soundfile) (skipframes : ℕ) (u : Bool)
    (h : env.openOk = true) :
    (openAfterProbe env fd sf1 skipframes u).headersizeAtHeaderRead
      = some sf1.sf_headersize := by
  unfold openAfterProbe
  rw [if_pos h]
  split_ifs <;> first
    | rfl
    | rw [openBadheader_hsAtRead]

/-- Case analysis of open_soundfile_via_fd over all probe and handler
outcomes. -/
theorem open_via_fd_spec (env : OpenEnv) (fd : ℤ)
    (sf0 : t_soundfile) (skipframes : ℕ) (hfd : 0 ≤ fd) :
    ((open_soundfile_via_fd env fd sf0 skipframes).ret = fd
      ∨ (open_soundfile_via_fd env fd sf0 skipframes).ret = -1)
    ∧ ((open_soundfile_via_fd env fd sf0 skipframes).ret = -1 →
        (open_soundfile_via_fd env fd sf0 skipframes).sf.sf_fd = -1
        ∧ (open_soundfile_via_fd env fd sf0 skipframes).errno ≠ 0
        ∧ ((open_soundfile_via_fd env fd sf0 skipframes).closefnCalled
            = true
          ∨ (open_soundfile_via_fd env fd sf0 skipframes).sysCloseCalled
            = true))
    ∧ (env.errnoLseek = 0 → env.errnoOpen = 0 → env.errnoReadHeader = 0 →
        env.errnoSeek = 0 →
        (open_soundfile_via_fd env fd sf0 skipframes).ret = -1 →
        (open_soundfile_via_fd env fd sf0 skipframes).errno = EIO)
    ∧ ((open_soundfile_via_fd env fd sf0 skipframes).ret = fd →
        (open_soundfile_via_fd env fd sf0 skipframes).sf.sf_fd = fd
        ∧ (open_soundfile_via_fd env fd sf0 skipframes).sf.sf_nchannels
          = env.info.nchannels
        ∧ (open_soundfile_via_fd env fd sf0
            skipframes).sf.sf_bytespersample = env.info.bytespersample
        ∧ 0 ≤ (open_soundfile_via_fd env fd sf0
            skipframes).sf.sf_bytelimit) := by
  unfold open_soundfile_via_fd
  by_cases h0 : 0 ≤ sf0.sf_headersize
  · rw [if_pos h0]
    have h := openAfterProbe_spec env fd
      { sf0 with sf_type := some sf_rawtype } skipframes true hfd
    exact ⟨h.1, h.2.1, fun _ h2 h3 h4 => h.2.2.1 h2 h3 h4,
      fun hr => ⟨(h.2.2.2 hr).1, (h.2.2.2 hr).2.1, (h.2.2.2 hr).2.2.1,
        (h.2.2.2 hr).2.2.2.2⟩⟩
  · rw [if_neg h0]
    cases htype : sf0.sf_type with
    | none =>
      cases hdet : env.detectedType with
      | none =>
        dsimp only
        have h := openBadheader_spec 0 fd sf0 false none hfd
        exact ⟨Or.inr h.1, fun _ => ⟨h.2.1, h.2.2.1, h.2.2.2.2⟩,
          fun _ _ _ _ _ => h.2.2.2.1 rfl,
          fun hr => absurd (h.1.symm.trans hr) (by omega)⟩
      | some t =>
        dsimp only
        by_cases hls : env.lseekOk
        · rw [if_pos hls]
          have h := openAfterProbe_spec env fd
            { sf0 with sf_type := some t } skipframes false hfd
          exact ⟨h.1, h.2.1, fun h1 h2 h3 h4 => h.2.2.1 h2 h3 h4,
            fun hr => ⟨(h.2.2.2 hr).1, (h.2.2.2 hr).2.1,
              (h.2.2.2 hr).2.2.1, (h.2.2.2 hr).2.2.2.2⟩⟩
        · rw [if_neg hls]
          have h := openBadheader_spec env.errnoLseek fd
            { sf0 with sf_type := some t } false none hfd
          exact ⟨Or.inr h.1, fun _ => ⟨h.2.1, h.2.2.1, h.2.2.2.2⟩,
            fun h1 _ _ _ _ => h.2.2.2.1 h1,
            fun hr => absurd (h.1.symm.trans hr) (by omega)⟩
    | some t =>
      dsimp only
      by_cases hpr : env.givenTypeProbeOk
      · rw [if_pos hpr]
        by_cases hls : env.lseekOk
        · rw [if_pos hls]
          have h := openAfterProbe_spec env fd sf0 skipframes false hfd
          exact ⟨h.1, h.2.1, fun h1 h2 h3 h4 => h.2.2.1 h2 h3 h4,
            fun hr => ⟨(h.2.2.2 hr).1, (h.2.2.2 hr).2.1,
              (h.2.2.2 hr).2.2.1, (h.2.2.2 hr).2.2.2.2⟩⟩
        · rw [if_neg hls]
          have h := openBadheader_spec env.errnoLseek fd sf0 false none hfd
          exact ⟨Or.inr h.1, fun _ => ⟨h.2.1, h.2.2.1, h.2.2.2.2⟩,
            fun h1 _ _ _ _ => h.2.2.2.1 h1,
            fun hr => absurd (h.1.symm.trans hr) (by omega)⟩
      · rw [if_neg hpr]
        have h := openBadheader_spec 0 fd sf0 false none hfd
        exact ⟨Or.inr h.1, fun _ => ⟨h.2.1, h.2.2.1, h.2.2.2.2⟩,
          fun _ _ _ _ _ => h.2.2.2.1 rfl,
          fun hr => absurd (h.1.symm.trans hr) (by omega)⟩

/-- C5: synchronous open failure handling.  On any failing step
open_soundfile_via_fd returns -1, leaves sf_fd = -1, leaves errno
nonzero (EIO when no OS errno was set), and either ran the handler's
t_closefn or closed fd directly; on success it returns fd with the
descriptor filled in (fd recorded, header fields taken from the
header read, bytelimit clamped nonnegative). -/
theorem c5_open_failure_handling (env : OpenEnv) (fd : ℤ)
    (sf0 : t_soundfile) (skipframes : ℕ) (hfd : 0 ≤ fd) :
    ((open_soundfile_via_fd env fd sf0 skipframes).ret = fd
      ∨ (open_soundfile_via_fd env fd sf0 skipframes).ret = -1)
    ∧ ((open_soundfile_via_fd env fd sf0 skipframes).ret = -1 →
        (open_soundfile_via_fd env fd sf0 skipframes).sf.sf_fd = -1
        ∧ (open_soundfile_via_fd env fd sf0 skipframes).errno ≠ 0
        ∧ ((open_soundfile_via_fd env fd sf0 skipframes).closefnCalled
            = true
          ∨ (open_soundfile_via_fd env fd sf0 skipframes).sysCloseCalled
            = true))
    ∧ (env.errnoLseek = 0 → env.errnoOpen = 0 → env.errnoReadHeader = 0 →
        env.errnoSeek = 0 →
        (open_soundfile_via_fd env fd sf0 skipframes).ret = -1 →
        (open_soundfile_via_fd env fd sf0 skipframes).errno = EIO)
    ∧ ((open_soundfile_via_fd env fd sf0 skipframes).ret = fd →
        (open_soundfile_via_fd env fd sf0 skipframes).sf.sf_fd = fd
        ∧ (open_soundfile_via_fd env fd sf0 skipframes).sf.sf_nchannels
          = env.info.nchannels
        ∧ (open_soundfile_via_fd env fd sf0
            skipframes).sf.sf_bytespersample = env.info.bytespersample
        ∧ 0 ≤ (open_soundfile_via_fd env fd sf0
            skipframes).sf.sf_bytelimit) :=
  open_via_fd_spec env fd sf0 skipframes hfd

theorem c5_open_failure_handling_witness :
    (open_soundfile_via_fd envC5W 3 {} 0).ret = 3
    ∨ (open_soundfile_via_fd envC5W 3 {} 0).ret = -1 :=
  (c5_open_failure_handling envC5W 3 {} 0 (by norm_num)).1

/-- C8: header-size override semantics.  At message level the value 0
maps to the internal "unset" value -1, a positive value is kept and a
negative value maps to 0; open_soundfile_via_fd selects the raw type
exactly when the internal sf_headersize is nonnegative (and then the
descriptor still carries that header size when the raw header read
runs), and a negative internal value triggers probe-based detection. -/
theorem c8_headersize_override :
    readsfOpenHeadersize 0 = -1
    ∧ (∀ h : ℤ, 0 < h → readsfOpenHeadersize h = h)
    ∧ (∀ h : ℤ, h < 0 → readsfOpenHeadersize h = 0)
    ∧ (∀ (env : OpenEnv) (fd : ℤ) (sf0 : t_soundfile) (skipframes : ℕ),
        0 ≤ sf0.sf_headersize →
        (open_soundfile_via_fd env fd sf0 skipframes).usedRaw = true
        ∧ (env.openOk = true →
          (open_soundfile_via_fd env fd sf0 skipframes).headersizeAtHeaderRead
            = some sf0.sf_headersize))
    ∧ (∀ (env : OpenEnv) (fd : ℤ) (sf0 : t_soundfile) (skipframes : ℕ),
        sf0.sf_headersize < 0 →
        (open_soundfile_via_fd env fd sf0 skipframes).usedRaw = false) := by
  refine ⟨rfl, ?_, ?_, ?_, ?_⟩
  · intro h hh; unfold readsfOpenHeadersize; rw [if_pos hh]
  · intro h hh; unfold readsfOpenHeadersize
    rw [if_neg (by omega), if_neg (by omega)]
  · intro env fd sf0 skipframes h0
    unfold open_soundfile_via_fd
    rw [if_pos h0]
    exact ⟨openAfterProbe_usedRaw _ _ _ _ _,
      fun ho => openAfterProbe_hsAtRead _ _ _ _ _ ho⟩
  · intro env fd sf0 skipframes h0
    unfold open_soundfile_via_fd
    rw [if_neg (by omega)]
    cases htype : sf0.sf_type with
    | none =>
      cases hdet : env.detectedType with
      | none => dsimp only; rw [openBadheader_usedRaw]
      | some t =>
        dsimp only
        by_cases hls : env.lseekOk
        · rw [if_pos hls, openAfterProbe_usedRaw]
        · rw [if_neg hls, openBadheader_usedRaw]
    | some t =>
      dsimp only
      by_cases hpr : env.givenTypeProbeOk
      · rw [if_pos hpr]
        by_cases hls : env.lseekOk
        · rw [if_pos hls, openAfterProbe_usedRaw]
        · rw [if_neg hls, openBadheader_usedRaw]
      · rw [if_neg hpr, openBadheader_usedRaw]

theorem c8_headersize_override_witness :
    (open_soundfile_via_fd envC5W 3 { sf_headersize := 7 } 0).usedRaw
      = true :=
  (c8_headersize_override.2.2.2.1 envC5W 3 { sf_headersize := 7 } 0
    (by norm_num)).1

theorem fifosizeOf_spec (p : RsfParams) (hp : RsfParamsOk p) :
    wantbytesPerTick p ∣ fifosizeOf p
    ∧ wantbytesPerTick p ≤ fifosizeOf p
    ∧ 0 < wantbytesPerTick p ∧ 0 < fifosizeOf p := by
  obtain ⟨hbpf, hv, hdvd, hbuf⟩ := hp
  have hm : 0 < p.bytesperframe * MAXVECSIZE := by
    have : (0 : ℕ) < MAXVECSIZE := by decide
    positivity
  have hfs : fifosizeOf p
      = p.bufsize / (p.bytesperframe * MAXVECSIZE)
        * (p.bytesperframe * MAXVECSIZE) := by
    unfold fifosizeOf
    have h1 := Nat.div_add_mod p.bufsize (p.bytesperframe * MAXVECSIZE)
    have h2 : p.bufsize / (p.bytesperframe * MAXVECSIZE)
          * (p.bytesperframe * MAXVECSIZE)
        = (p.bytesperframe * MAXVECSIZE)
          * (p.bufsize / (p.bytesperframe * MAXVECSIZE)) :=
      Nat.mul_comm _ _
    omega
  have hwm : wantbytesPerTick p ∣ p.bytesperframe * MAXVECSIZE := by
    unfold wantbytesPerTick
    rw [Nat.mul_comm p.bytesperframe MAXVECSIZE]
    exact Nat.mul_dvd_mul hdvd dvd_rfl
  have hq : 1 ≤ p.bufsize / (p.bytesperframe * MAXVECSIZE) :=
    (Nat.one_le_div_iff hm).mpr hbuf
  refine ⟨?_, ?_, ?_, ?_⟩
  · rw [hfs]
    exact dvd_mul_of_dvd_right hwm _
  · rw [hfs]
    calc wantbytesPerTick p ≤ p.bytesperframe * MAXVECSIZE :=
          Nat.le_of_dvd hm hwm
      _ = 1 * (p.bytesperframe * MAXVECSIZE) := (Nat.one_mul _).symm
      _ ≤ p.bufsize / (p.bytesperframe * MAXVECSIZE)
            * (p.bytesperframe * MAXVECSIZE) :=
          Nat.mul_le_mul_right _ hq
  · unfold wantbytesPerTick; positivity
  · rw [hfs]
    have := Nat.mul_le_mul hq (le_refl (p.bytesperframe * MAXVECSIZE))
    omega

theorem rsfInv_init (p : RsfParams) (hp : RsfParamsOk p) (s : RsfState)
    (h : RsfInit p s) : RsfInv p s := by
  obtain ⟨h1, h2, h3, h4, h5, h6, h7, h8, h9⟩ := h
  obtain ⟨_, _, hF0, hF1⟩ := fifosizeOf_spec p hp
  refine ⟨by omega, by omega, h3, ?_, ?_, ?_, h7⟩
  · rw [h2]; exact dvd_zero _
  · rw [h1, h8, Nat.zero_mod]
  · rw [h2, h9, Nat.zero_mod]

/-- A successful producer read never runs past the end of the buffer:
head + b <= fifosize, so the exact-wrap commit is sound. -/
theorem rsfProduce_le (p : RsfParams) (s : RsfState) (b : ℕ)
    (s' : RsfState) (hinv : RsfInv p s) (h : RsfProduce p s b s') :
    s.fifohead + b ≤ s.fifosize := by
  obtain ⟨hh, ht, _, _, _, _, _⟩ := hinv
  cases h with
  | ahead hge hguard hb0 hble =>
    have h1 : b ≤ s.fifosize - s.fifohead :=
      le_trans hble (le_trans (min_le_left _ _) (min_le_left _ _))
    omega
  | behind hlt hguard hb0 hble =>
    have h1 : b ≤ READSIZE := le_trans hble (min_le_left _ _)
    omega

theorem rsfInv_step (p : RsfParams) (hp : RsfParamsOk p) (s s' : RsfState)
    (hinv : RsfInv p s) (h : RsfStep p s s') : RsfInv p s' := by
  obtain ⟨hdvdF, hwle, hw0, hF0⟩ := fifosizeOf_spec p hp
  obtain ⟨hh, ht, hF, hdvdT, hhp, htc, hbl⟩ := hinv
  cases h with
  | produce b s' hprod =>
    have hble := rsfProduce_le p s b s' ⟨hh, ht, hF, hdvdT, hhp, htc, hbl⟩
      hprod
    have hbbl : (b : ℤ) ≤ s.bytelimit := by
      cases hprod with
      | ahead hge hguard hb0 hble2 =>
        have h1 : b ≤ s.bytelimit.toNat := le_trans hble2 (min_le_right _ _)
        omega
      | behind hlt hguard hb0 hble2 =>
        have h1 : b ≤ s.bytelimit.toNat := le_trans hble2 (min_le_right _ _)
        omega
    have hs' : s' = rsfAdvance s b := by
      cases hprod with
      | ahead hge hguard hb0 hble2 => rfl
      | behind hlt hguard hb0 hble2 => rfl
    subst hs'
    have hmod : (s.produced + b) % s.fifosize
        = (s.fifohead + b) % s.fifosize := by
      have h1 : Nat.ModEq s.fifosize s.produced s.fifohead := by
        unfold Nat.ModEq
        rw [← hhp, Nat.mod_eq_of_lt hh]
      exact h1.add_right b
    unfold rsfAdvance
    refine ⟨?_, ht, hF, hdvdT, ?_, htc, ?_⟩
    · dsimp only
      split_ifs with h1
      · omega
      · omega
    · dsimp only
      rw [hmod]
      split_ifs with h1
      · rw [h1, Nat.mod_self]
      · rw [Nat.mod_eq_of_lt (by omega)]
    · show (0 : ℤ) ≤ s.bytelimit - b
      omega
  | produceEof => exact ⟨hh, ht, hF, hdvdT, hhp, htc, hbl⟩
  | produceError => exact ⟨hh, ht, hF, hdvdT, hhp, htc, hbl⟩
  | consume hguard =>
    have hwF : wantbytesPerTick p ∣ s.fifosize := by rw [hF]; exact hdvdF
    have htle : s.fifotail + wantbytesPerTick p ≤ s.fifosize := by
      obtain ⟨a, ha⟩ := hdvdT
      obtain ⟨k, hk⟩ := hwF
      have hak : a < k := by
        by_contra hc
        push_neg at hc
        have := Nat.mul_le_mul_left (wantbytesPerTick p) hc
        omega
      have := Nat.mul_le_mul_left (wantbytesPerTick p)
        (show a + 1 ≤ k by omega)
      calc s.fifotail + wantbytesPerTick p
          = wantbytesPerTick p * (a + 1) := by rw [ha]; ring
        _ ≤ wantbytesPerTick p * k := Nat.mul_le_mul_left _ (by omega)
        _ = s.fifosize := hk.symm
    have hmod : (s.consumed + wantbytesPerTick p) % s.fifosize
        = (s.fifotail + wantbytesPerTick p) % s.fifosize := by
      have h1 : Nat.ModEq s.fifosize s.consumed s.fifotail := by
        unfold Nat.ModEq
        rw [← htc, Nat.mod_eq_of_lt ht]
      exact h1.add_right _
    unfold rsfConsume
    refine ⟨hh, ?_, hF, ?_, hhp, ?_, hbl⟩
    · dsimp only
      split_ifs with h1
      · omega
      · omega
    · dsimp only
      split_ifs with h1
      · exact dvd_zero _
      · exact Dvd.dvd.add hdvdT dvd_rfl
    · dsimp only
      rw [hmod]
      split_ifs with h1
      · rw [show s.fifotail + wantbytesPerTick p = s.fifosize by omega,
          Nat.mod_self]
      · rw [Nat.mod_eq_of_lt (by omega)]

theorem rsfInv_reach (p : RsfParams) (hp : RsfParamsOk p) (s : RsfState)
    (h : RsfReach p s) : RsfInv p s := by
  induction h with
  | init s hi => exact rsfInv_init p hp s hi
  | step s s' hr hstep ih => exact rsfInv_step p hp s s' ih hstep

theorem wsfInv_init (p : RsfParams) (hp : RsfParamsOk p) (s : WsfState)
    (h : WsfInit p s) : WsfInv p s := by
  obtain ⟨h1, h2, h3, h4, h5, h6, h7, h8, h9⟩ := h
  obtain ⟨_, _, hF0, hF1⟩ := fifosizeOf_spec p hp
  refine ⟨by omega, by omega, h3, ?_, by omega, by omega, ?_⟩
  · rw [h1]; exact dvd_zero _
  · rw [h1, h2, h8, h9]
    simp

/-- wsfRoom is fifosize minus the fill count. -/
theorem wsfRoom_eq (p : RsfParams) (s : WsfState) (hinv : WsfInv p s) :
    wsfRoom s = s.fifosize - (s.produced - s.consumed) := by
  obtain ⟨hh, ht, hF, hdvdH, hcp, hfill, hrel⟩ := hinv
  unfold wsfRoom
  rcases Nat.lt_or_ge (s.fifotail + (s.produced - s.consumed)) s.fifosize
    with hc | hc
  · rw [Nat.mod_eq_of_lt hc] at hrel
    split_ifs with h1
    · omega
    · omega
  · have h2 : (s.fifotail + (s.produced - s.consumed)) % s.fifosize
        = s.fifotail + (s.produced - s.consumed) - s.fifosize := by
      rw [Nat.mod_eq_sub_mod hc, Nat.mod_eq_of_lt (by omega)]
    rw [h2] at hrel
    split_ifs with h1
    · omega
    · omega

/-- The drain window always fits in the available data: writebytes is
positive under the drain guard and never exceeds the fill count, and
tail + writebytes stays within the buffer. -/
theorem wsfWritebytes_spec (p : RsfParams) (s : WsfState)
    (hinv : WsfInv p s)
    (hguard : s.fifohead < s.fifotail ∨ s.fifotail + WRITESIZE ≤ s.fifohead
      ∨ s.fifohead ≠ s.fifotail) :
    0 < wsfWritebytes s ∧ wsfWritebytes s ≤ s.produced - s.consumed
    ∧ s.fifotail + wsfWritebytes s ≤ s.fifosize := by
  obtain ⟨hh, ht, hF, hdvdH, hcp, hfill, hrel⟩ := hinv
  have hne : s.fifohead ≠ s.fifotail := by
    rcases hguard with h | h | h
    · omega
    · have : (0 : ℕ) < WRITESIZE := by decide
      omega
    · exact h
  unfold wsfWritebytes
  rcases Nat.lt_or_ge (s.fifotail + (s.produced - s.consumed)) s.fifosize
    with hc | hc
  · rw [Nat.mod_eq_of_lt hc] at hrel
    -- head = tail + fill, so tail <= head and fill = head - tail
    rw [if_neg (by omega)]
    have hRS : (0 : ℕ) < READSIZE := by decide
    refine ⟨?_, ?_, ?_⟩
    · have : 0 < s.fifohead - s.fifotail := by omega
      exact lt_min this hRS
    · have := min_le_left (s.fifohead - s.fifotail) READSIZE
      omega
    · have := min_le_left (s.fifohead - s.fifotail) READSIZE
      omega
  · have h2 : (s.fifotail + (s.produced - s.consumed)) % s.fifosize
        = s.fifotail + (s.produced - s.consumed) - s.fifosize := by
      rw [Nat.mod_eq_sub_mod hc, Nat.mod_eq_of_lt (by omega)]
    rw [h2] at hrel
    -- head = tail + fill - fifosize < tail (one-empty-slot: fill <= F-1)
    rw [if_pos (by omega)]
    have hRS : (0 : ℕ) < READSIZE := by decide
    refine ⟨?_, ?_, ?_⟩
    · have : 0 < s.fifosize - s.fifotail := by omega
      exact lt_min this hRS
    · have := min_le_left (s.fifosize - s.fifotail) READSIZE
      omega
    · have := min_le_left (s.fifosize - s.fifotail) READSIZE
      omega

theorem wsfInv_step (p : RsfParams) (hp : RsfParamsOk p) (s s' : WsfState)
    (hinv : WsfInv p s) (h : WsfStep p s s') : WsfInv p s' := by
  obtain ⟨hdvdF, hwle, hw0, hF0⟩ := fifosizeOf_spec p hp
  have hinv' := hinv
  obtain ⟨hh, ht, hF, hdvdH, hcp, hfill, hrel⟩ := hinv'
  cases h with
  | produce hroom =>
    rw [wsfRoom_eq p s hinv] at hroom
    have hwF : wantbytesPerTick p ∣ s.fifosize := by rw [hF]; exact hdvdF
    have hhle : s.fifohead + wantbytesPerTick p ≤ s.fifosize := by
      obtain ⟨a, ha⟩ := hdvdH
      obtain ⟨k, hk⟩ := hwF
      have hak : a < k := by
        by_contra hc
        push_neg at hc
        have := Nat.mul_le_mul_left (wantbytesPerTick p) hc
        omega
      calc s.fifohead + wantbytesPerTick p
          = wantbytesPerTick p * (a + 1) := by rw [ha]; ring
        _ ≤ wantbytesPerTick p * k := Nat.mul_le_mul_left _ (by omega)
        _ = s.fifosize := hk.symm
    have hmod : (s.fifotail + (s.produced + wantbytesPerTick p
          - s.consumed)) % s.fifosize
        = (s.fifohead + wantbytesPerTick p) % s.fifosize := by
      have h1 : s.fifotail + (s.produced + wantbytesPerTick p - s.consumed)
          = s.fifotail + (s.produced - s.consumed) + wantbytesPerTick p
          := by omega
      rw [h1]
      conv_lhs => rw [Nat.add_mod]
      conv_rhs => rw [Nat.add_mod]
      rw [← hrel, Nat.mod_eq_of_lt hh]
    unfold wsfProduce
    refine ⟨?_, ht, hF, ?_, ?_, ?_, ?_⟩
    · dsimp only
      split_ifs with h1
      · omega
      · omega
    · dsimp only
      split_ifs with h1
      · exact dvd_zero _
      · exact Dvd.dvd.add hdvdH dvd_rfl
    · show s.consumed ≤ s.produced + wantbytesPerTick p
      omega
    · show s.produced + wantbytesPerTick p - s.consumed ≤ s.fifosize - 1
      omega
    · dsimp only
      rw [hmod]
      split_ifs with h1
      · rw [show s.fifohead + wantbytesPerTick p = s.fifosize by omega,
          Nat.mod_self]
      · rw [Nat.mod_eq_of_lt (by omega)]
  | consume hguard =>
    obtain ⟨hw1, hw2, hw3⟩ := wsfWritebytes_spec p s hinv hguard
    have hmod : (if s.fifotail + wsfWritebytes s = s.fifosize then 0
          else s.fifotail + wsfWritebytes s)
        = (s.fifotail + wsfWritebytes s) % s.fifosize := by
      split_ifs with h1
      · rw [h1, Nat.mod_self]
      · rw [Nat.mod_eq_of_lt (by omega)]
    unfold wsfConsume
    refine ⟨hh, ?_, hF, hdvdH, ?_, ?_, ?_⟩
    · dsimp only
      split_ifs with h1
      · omega
      · omega
    · show s.consumed + wsfWritebytes s ≤ s.produced
      omega
    · show s.produced - (s.consumed + wsfWritebytes s) ≤ s.fifosize - 1
      omega
    · dsimp only
      rw [hmod]
      have h1 : s.fifotail + wsfWritebytes s
            + (s.produced - (s.consumed + wsfWritebytes s))
          = s.fifotail + (s.produced - s.consumed) := by omega
      rw [Nat.add_mod, Nat.mod_mod_of_dvd _ dvd_rfl, ← Nat.add_mod, h1,
        ← hrel]
  | writeError => exact ⟨hh, ht, hF, hdvdH, hcp, hfill, hrel⟩

theorem wsfInv_reach (p : RsfParams) (hp : RsfParamsOk p) (s : WsfState)
    (h : WsfReach p s) : WsfInv p s := by
  induction h with
  | init s hi => exact wsfInv_init p hp s hi
  | step s s' hr hstep ih => exact wsfInv_step p hp s s' ih hstep

/-- The ring slot immediately before tail. -/
theorem ringSlotBeforeTail (t F : ℕ) (hF : 0 < F) (ht : t < F) :
    (t + F - 1) % F = if t = 0 then F - 1 else t - 1 := by
  split_ifs with h
  · rw [h, Nat.zero_add]
    exact Nat.mod_eq_of_lt (by omega)
  · rw [Nat.mod_eq_sub_mod (by omega),
      show t + F - 1 - F = t - 1 from by omega]
    exact Nat.mod_eq_of_lt (by omega)

/-- The reader's producer never runs past the end of the fifo, never
writes the slot immediately before tail, and never lands head on tail
(one-empty-slot rule). -/
theorem rsfProduce_oneslot (p : RsfParams) (s : RsfState) (b : ℕ)
    (s' : RsfState) (hinv : RsfInv p s) (h : RsfProduce p s b s') :
    s.fifohead + b ≤ s.fifosize
    ∧ (∀ q, s.fifohead ≤ q → q < s.fifohead + b →
        q ≠ (s.fifotail + s.fifosize - 1) % s.fifosize)
    ∧ s'.fifohead ≠ s.fifotail := by
  have hle := rsfProduce_le p s b s' hinv h
  obtain ⟨hh, ht, hF, _, _, _, _⟩ := hinv
  have hF0 : 0 < s.fifosize := by omega
  have hslot := ringSlotBeforeTail s.fifotail s.fifosize hF0 ht
  cases h with
  | ahead hge hguard hb0 hble =>
    have hbRS : b ≤ READSIZE :=
      le_trans hble (le_trans (min_le_left _ _) (min_le_right _ _))
    have hhead' : (rsfAdvance s b).fifohead
        = if s.fifohead + b = s.fifosize then 0 else s.fifohead + b := rfl
    by_cases ht0 : s.fifotail = 0
    · have hstrict : s.fifohead + b < s.fifosize := by
        rcases hguard with h1 | h1
        · exact absurd ht0 h1
        · omega
      rw [hslot, if_pos ht0]
      refine ⟨hle, ?_, ?_⟩
      · intro q hq1 hq2; omega
      · rw [hhead', if_neg (by omega)]; omega
    · rw [hslot, if_neg ht0]
      refine ⟨hle, ?_, ?_⟩
      · intro q hq1 hq2; omega
      · rw [hhead']
        split_ifs with h1
        · omega
        · omega
  | behind hlt hguard hb0 hble =>
    have hbRS : b ≤ READSIZE := le_trans hble (min_le_left _ _)
    have hb2 : s.fifohead + b ≤ s.fifotail - 1 := by omega
    have ht0 : s.fifotail ≠ 0 := by omega
    rw [hslot, if_neg ht0]
    have hhead' : (rsfAdvance s b).fifohead
        = if s.fifohead + b = s.fifosize then 0 else s.fifohead + b := rfl
    refine ⟨hle, ?_, ?_⟩
    · intro q hq1 hq2; omega
    · rw [hhead', if_neg (by omega)]; omega

/-- For the writer the one-empty-slot convention makes head = tail
equivalent to an empty fifo. -/
theorem wsfInv_empty_iff (p : RsfParams) (s : WsfState)
    (hinv : WsfInv p s) :
    s.fifohead = s.fifotail ↔ s.produced = s.consumed := by
  obtain ⟨hh, ht, hF, _, hcp, hfill, hrel⟩ := hinv
  constructor
  · intro he
    rcases Nat.lt_or_ge (s.fifotail + (s.produced - s.consumed)) s.fifosize
      with hc | hc
    · rw [Nat.mod_eq_of_lt hc] at hrel
      omega
    · rw [Nat.mod_eq_sub_mod hc, Nat.mod_eq_of_lt (by omega)] at hrel
      omega
  · intro he
    rw [show s.produced - s.consumed = 0 from by omega, Nat.add_zero,
      Nat.mod_eq_of_lt ht] at hrel
    exact hrel

/-- The writer's producer never runs past the end of the fifo, never
writes the slot immediately before tail, and never lands head on
tail. -/
theorem wsfProduce_oneslot (p : RsfParams) (hp : RsfParamsOk p)
    (s : WsfState) (hinv : WsfInv p s)
    (hroom : wantbytesPerTick p + 1 ≤ wsfRoom s) :
    s.fifohead + wantbytesPerTick p ≤ s.fifosize
    ∧ (∀ q, s.fifohead ≤ q → q < s.fifohead + wantbytesPerTick p →
        q ≠ (s.fifotail + s.fifosize - 1) % s.fifosize)
    ∧ (wsfProduce p s).fifohead ≠ s.fifotail := by
  obtain ⟨hdvdF, hwle, hw0, hF0'⟩ := fifosizeOf_spec p hp
  have hroom2 := hroom
  rw [wsfRoom_eq p s hinv] at hroom2
  obtain ⟨hh, ht, hF, hdvdH, hcp, hfill, hrel⟩ := hinv
  have hF0 : 0 < s.fifosize := by omega
  have hwF : wantbytesPerTick p ∣ s.fifosize := by rw [hF]; exact hdvdF
  have hhle : s.fifohead + wantbytesPerTick p ≤ s.fifosize := by
    obtain ⟨a, ha⟩ := hdvdH
    obtain ⟨k, hk⟩ := hwF
    have hak : a < k := by
      by_contra hc
      push_neg at hc
      have := Nat.mul_le_mul_left (wantbytesPerTick p) hc
      omega
    calc s.fifohead + wantbytesPerTick p
        = wantbytesPerTick p * (a + 1) := by rw [ha]; ring
      _ ≤ wantbytesPerTick p * k := Nat.mul_le_mul_left _ (by omega)
      _ = s.fifosize := hk.symm
  have hslot := ringSlotBeforeTail s.fifotail s.fifosize hF0 ht
  have hhead' : (wsfProduce p s).fifohead
      = if s.fifosize ≤ s.fifohead + wantbytesPerTick p then 0
        else s.fifohead + wantbytesPerTick p := rfl
  rcases Nat.lt_or_ge (s.fifotail + (s.produced - s.consumed)) s.fifosize
    with hc | hc
  · -- head = tail + fill: the window lies in [tail + fill, ...]
    rw [Nat.mod_eq_of_lt hc] at hrel
    by_cases ht0 : s.fifotail = 0
    · rw [hslot, if_pos ht0]
      refine ⟨hhle, ?_, ?_⟩
      · intro q hq1 hq2; omega
      · rw [hhead']
        split_ifs with h1
        · omega
        · omega
    · rw [hslot, if_neg ht0]
      refine ⟨hhle, ?_, ?_⟩
      · intro q hq1 hq2; omega
      · rw [hhead']
        split_ifs with h1
        · omega
        · omega
  · -- head wrapped: head = tail + fill - fifosize < tail
    rw [Nat.mod_eq_sub_mod hc, Nat.mod_eq_of_lt (by omega)] at hrel
    have ht0 : s.fifotail ≠ 0 := by omega
    rw [hslot, if_neg ht0]
    refine ⟨hhle, ?_, ?_⟩
    · intro q hq1 hq2; omega
    · rw [hhead']
      split_ifs with h1
      · omega
      · omega

/-- C1 fails as stated for the reader: from c1s0 the worker reads the
file's 255 remaining bytes (head = 255, eof set), and the callback's
wait guard `head < tail + wantbytes - 1` (255 < 255) is already false,
so readsf_perform consumes a full 256-byte tick; the resulting state
has every produced byte consumed (the fifo is empty, consumed >=
produced) yet head = 255 and tail = 256 differ, refuting
"head = tail iff the fifo is empty". -/
theorem c1_ring_counterexample :
    RsfReach c1p (rsfConsume c1p (rsfAdvance c1s0 255))
    ∧ (rsfConsume c1p (rsfAdvance c1s0 255)).produced
        ≤ (rsfConsume c1p (rsfAdvance c1s0 255)).consumed
    ∧ (rsfConsume c1p (rsfAdvance c1s0 255)).fifohead
        ≠ (rsfConsume c1p (rsfAdvance c1s0 255)).fifotail := by
  refine ⟨?_, by decide, by decide⟩
  apply RsfReach.step _ _ ?_ (RsfStep.consume _ (by decide))
  apply RsfReach.step _ _ (RsfReach.init c1s0 ?_)
    (RsfStep.produce _ 255 _ (RsfProduce.ahead c1s0 255 (by decide)
      (Or.inr (by decide)) (by decide) (by decide)))
  refine ⟨rfl, rfl, by decide, by decide, rfl, rfl, by decide, rfl, rfl⟩

/-- C1 amended.  For every interleaving of callback and worker steps
after a stream start: indices stay in [0, fifosize); the reader's
producer writes stay inside the buffer, never cover the slot
immediately before tail and never land head on tail, and head / tail
track the produced / consumed byte counts modulo fifosize (so
head = tail iff produced = consumed mod fifosize); for the writer the
full claim holds: indices in range, producer writes one-empty-slot
clean, and head = tail exactly when the fifo is empty (produced =
consumed).  The unqualified "head = tail iff empty" fails for the
reader because the callback may consume a tick with only wantbytes - 1
bytes buffered. -/
theorem c1_ring_amended (p : RsfParams) (hp : RsfParamsOk p) :
    (∀ s, RsfReach p s →
      s.fifohead < s.fifosize ∧ s.fifotail < s.fifosize
      ∧ s.fifohead = s.produced % s.fifosize
      ∧ s.fifotail = s.consumed % s.fifosize)
    ∧ (∀ s b s', RsfReach p s → RsfProduce p s b s' →
      s.fifohead + b ≤ s.fifosize
      ∧ (∀ q, s.fifohead ≤ q → q < s.fifohead + b →
          q ≠ (s.fifotail + s.fifosize - 1) % s.fifosize)
      ∧ s'.fifohead ≠ s.fifotail)
    ∧ (∀ s, WsfReach p s →
      s.fifohead < s.fifosize ∧ s.fifotail < s.fifosize
      ∧ (s.fifohead = s.fifotail ↔ s.produced = s.consumed))
    ∧ (∀ s, WsfReach p s → wantbytesPerTick p + 1 ≤ wsfRoom s →
      s.fifohead + wantbytesPerTick p ≤ s.fifosize
      ∧ (∀ q, s.fifohead ≤ q → q < s.fifohead + wantbytesPerTick p →
          q ≠ (s.fifotail + s.fifosize - 1) % s.fifosize)
      ∧ (wsfProduce p s).fifohead ≠ s.fifotail) := by
  refine ⟨?_, ?_, ?_, ?_⟩
  · intro s hr
    obtain ⟨h1, h2, _, _, h5, h6, _⟩ := rsfInv_reach p hp s hr
    exact ⟨h1, h2, h5, h6⟩
  · intro s b s' hr hprod
    exact rsfProduce_oneslot p s b s' (rsfInv_reach p hp s hr) hprod
  · intro s hr
    have hinv := wsfInv_reach p hp s hr
    exact ⟨hinv.1, hinv.2.1, wsfInv_empty_iff p s hinv⟩
  · intro s hr hroom
    exact wsfProduce_oneslot p hp s (wsfInv_reach p hp s hr) hroom

theorem c1_ring_amended_witness :
    c1s0.fifohead < c1s0.fifosize ∧ c1s0.fifotail < c1s0.fifosize
    ∧ c1s0.fifohead = c1s0.produced % c1s0.fifosize
    ∧ c1s0.fifotail = c1s0.consumed % c1s0.fifosize :=
  (c1_ring_amended c1p ⟨by decide, by decide, by decide, by decide⟩).1
    c1s0 (RsfReach.init c1s0
    ⟨rfl, rfl, by decide, by decide, rfl, rfl, by decide, rfl, rfl⟩)

/-- C6: sf_bytelimit is never negative.  open_soundfile_via_fd clamps
the skip decrement at zero; along every reachable reader state the
limit stays nonnegative; no step increases it; and a successful read
debits exactly the bytes read, setting eof when the limit is
exhausted. -/
theorem c6_bytelimit_invariant (p : RsfParams) (hp : RsfParamsOk p) :
    (∀ (env : OpenEnv) (fd : ℤ) (sf0 : t_soundfile) (skipframes : ℕ),
      0 ≤ fd → (open_soundfile_via_fd env fd sf0 skipframes).ret = fd →
      0 ≤ (open_soundfile_via_fd env fd sf0 skipframes).sf.sf_bytelimit)
    ∧ (∀ s, RsfReach p s → 0 ≤ s.bytelimit)
    ∧ (∀ s s', RsfStep p s s' → s'.bytelimit ≤ s.bytelimit)
    ∧ (∀ s b s', RsfProduce p s b s' →
        s'.bytelimit = s.bytelimit - b
        ∧ (s'.bytelimit ≤ 0 → s'.eof = true)) := by
  refine ⟨?_, ?_, ?_, ?_⟩
  · intro env fd sf0 skipframes hfd hr
    exact ((open_via_fd_spec env fd sf0 skipframes hfd).2.2.2 hr).2.2.2
  · intro s hr
    exact (rsfInv_reach p hp s hr).2.2.2.2.2.2
  · intro s s' hstep
    cases hstep with
    | produce b s' hprod =>
      cases hprod with
      | ahead hge hguard hb0 hble =>
        show s.bytelimit - b ≤ s.bytelimit
        omega
      | behind hlt hguard hb0 hble =>
        show s.bytelimit - b ≤ s.bytelimit
        omega
    | produceEof => exact le_refl _
    | produceError => exact le_refl _
    | consume hguard => exact le_refl _
  · intro s b s' hprod
    have hs' : s' = rsfAdvance s b := by
      cases hprod with
      | ahead hge hguard hb0 hble => rfl
      | behind hlt hguard hb0 hble => rfl
    subst hs'
    refine ⟨rfl, ?_⟩
    intro hle
    show (if s.bytelimit - b ≤ 0 then true else s.eof) = true
    rw [if_pos (show s.bytelimit - (b : ℤ) ≤ 0 from hle)]

theorem c6_bytelimit_invariant_witness :
    (0 : ℤ) ≤ c1s0.bytelimit :=
  (c6_bytelimit_invariant c1p
    ⟨by decide, by decide, by decide, by decide⟩).2.1 c1s0
    (RsfReach.init c1s0
    ⟨rfl, rfl, by decide, by decide, rfl, rfl, by decide, rfl, rfl⟩)

/-- C7 fails as stated: with fifosize 262144, bytesperframe 4 and
vecsize 64, readsf_dsp computes sigperiod = 262144 / (4 * 64) = 1024,
not the claimed fifosize / (16 * bytesperframe * vecsize) = 64 — the
dsp-bind handler omits the factor 16. -/
theorem c7_sigperiod_counterexample :
    readsf_dsp_sigperiod 262144 4 64 = 1024
    ∧ 262144 / (16 * 4 * 64) = 64
    ∧ ((1024 : ℕ) = 64 → False) := by
  refine ⟨by decide, by decide, by decide⟩

/-- C7 amended: the reader worker (after a successful OPEN) and the
writer (both at open and in writesf_dsp) compute
sigperiod = fifosize / (16 * bytesperframe * vecsize), with fifosize
rounded down from bufsize; readsf_dsp however computes
sigperiod = fifosize / (bytesperframe * vecsize), without the
factor 16. -/
theorem c7_sigperiod_amended (p : RsfParams) :
    (∀ s, RsfInit p s →
      s.sigperiod = s.fifosize / (16 * p.bytesperframe * p.vecsize)
      ∧ s.fifosize = p.bufsize - p.bufsize % (p.bytesperframe * 128))
    ∧ (∀ s, WsfInit p s →
      s.sigperiod = s.fifosize / (16 * (p.bytesperframe * p.vecsize)))
    ∧ (∀ fifosize bytesperframe vecsize : ℕ,
      readsf_dsp_sigperiod fifosize bytesperframe vecsize
        = fifosize / (bytesperframe * vecsize)
      ∧ writesf_dsp_sigperiod fifosize bytesperframe vecsize
        = fifosize / (16 * bytesperframe * vecsize)) := by
  refine ⟨?_, ?_, ?_⟩
  · intro s hi
    exact ⟨hi.2.2.2.1, hi.2.2.1⟩
  · intro s hi
    exact hi.2.2.2.1
  · intro fifosize bytesperframe vecsize
    exact ⟨rfl, rfl⟩

theorem c7_sigperiod_amended_witness :
    c1s0.sigperiod = c1s0.fifosize / (16 * c1p.bytesperframe * c1p.vecsize)
    ∧ c1s0.fifosize
      = c1p.bufsize - c1p.bufsize % (c1p.bytesperframe * 128) :=
  (c7_sigperiod_amended c1p).1 c1s0
    ⟨rfl, rfl, by decide, by decide, rfl, rfl, by decide, rfl, rfl⟩

end DSoundfile
